import Mathlib

/-!
Shallow embedding of the response-yolo sectional-analysis core.

The Python source is embedded over the real numbers.  Material backbones
(`stress`, `tangent`, ...) are external to the core (the solvers only call
them as opaque functions of strain), so materials are embedded as structures
of real-valued functions plus the scalar parameters the solvers read.
Bounded Python `for` loops become fuel-indexed recursions; every early
`break`/`return` of the source is an explicit branch of the recursion.
-/

open Real Classical

noncomputable section

/-- Concrete material interface as consumed by the analysis core
(`materials/concrete.py`): `stress`/`tangent` are the backbone evaluations,
`Ec`, `ft`, `ecu` the scalar parameters read by the solvers, and
`compression_stress_softened eps_magnitude eps_1` the Vecchio-Collins
softened compression branch. -/
structure Concrete where
  stress : ℝ → ℝ
  tangent : ℝ → ℝ
  Ec : ℝ
  ft : ℝ
  ecu : ℝ
  compression_stress_softened : ℝ → ℝ → ℝ

/-- `Concrete.ecr` property: cracking strain `ft / Ec`. -/
def Concrete.ecr (c : Concrete) : ℝ := c.ft / c.Ec

/-- Reinforcing steel interface (`materials/steel.py`): backbone evaluations
plus the yield strain `ey` and rupture strain `esu` read by event checks. -/
structure ReinforcingSteel where
  stress : ℝ → ℝ
  tangent : ℝ → ℝ
  ey : ℝ
  esu : ℝ

/-- Prestressing steel interface (`materials/prestressing.py`): backbone
evaluations plus the rupture strain `epu`. -/
structure PrestressingSteel where
  stress : ℝ → ℝ
  tangent : ℝ → ℝ
  epu : ℝ

/-! ### MCFT biaxial node solver (`analysis/mcft.py`) -/

/-- Converged state at an MCFT node (`MCFTState` dataclass). -/
structure MCFTState where
  eps_x : ℝ
  eps_y : ℝ
  gamma_xy : ℝ
  eps_1 : ℝ
  eps_2 : ℝ
  theta : ℝ
  sigma_x : ℝ
  sigma_y : ℝ
  tau_xy : ℝ
  fc1 : ℝ
  fc2 : ℝ
  tangent_xx : ℝ
  tangent_xg : ℝ
  tangent_gx : ℝ
  tangent_gg : ℝ
  converged : Bool

/-- Python `math.atan2 y x` on the reals (signed zeros collapse to `0`,
with the `y = 0, x < 0` case yielding `+pi` as for `+0.0` in Python). -/
def atan2 (y x : ℝ) : ℝ :=
  if 0 < x then Real.arctan (y / x)
  else if x < 0 then
    (if 0 ≤ y then Real.arctan (y / x) + Real.pi else Real.arctan (y / x) - Real.pi)
  else
    (if 0 < y then Real.pi / 2 else if y < 0 then -(Real.pi / 2) else 0)

/-- `_principal_strains`: Mohr's circle compatibility, returning
`(eps_1, eps_2, theta)` with `eps_1 ≥ eps_2`. -/
def _principal_strains (eps_x eps_y gamma_xy : ℝ) : ℝ × ℝ × ℝ :=
  let avg := 0.5 * (eps_x + eps_y)
  let diff := 0.5 * (eps_x - eps_y)
  let R := Real.sqrt (diff * diff + (0.5 * gamma_xy) ^ 2)
  let eps_1 := avg + R
  let eps_2 := avg - R
  let theta :=
    if |eps_x - eps_y| < 1e-15 ∧ |gamma_xy| < 1e-15 then 0
    else 0.5 * atan2 gamma_xy (eps_x - eps_y)
  (eps_1, eps_2, theta)

/-- Result tuple of `_concrete_stresses_xy`, with the source's component
order `(sigma_cx, sigma_cy, tau_cxy, fc1, fc2)` as named fields. -/
structure ConcreteStressesXY where
  sigma_cx : ℝ
  sigma_cy : ℝ
  tau_cxy : ℝ
  fc1 : ℝ
  fc2 : ℝ

/-- `_concrete_stresses_xy`: concrete principal stresses from principal
strains (tension stiffening and softened compression), rotated back to the
x-y frame via Mohr's circle. -/
def _concrete_stresses_xy (concrete : Concrete) (eps_1 eps_2 theta : ℝ) :
    ConcreteStressesXY :=
  let fc1 :=
    if 0 < eps_1 then
      (if eps_1 ≤ concrete.ecr then concrete.Ec * eps_1
       else concrete.ft / (1.0 + Real.sqrt (500.0 * eps_1)))
    else 0
  let fc2 :=
    if eps_2 < 0 then
      -(concrete.compression_stress_softened |eps_2| (max eps_1 0))
    else
      (if eps_2 ≤ concrete.ecr then concrete.Ec * eps_2
       else concrete.ft / (1.0 + Real.sqrt (500.0 * eps_2)))
  let cos_t := Real.cos theta
  let sin_t := Real.sin theta
  let c2 := cos_t * cos_t
  let s2 := sin_t * sin_t
  let cs := cos_t * sin_t
  { sigma_cx := fc1 * c2 + fc2 * s2
    sigma_cy := fc1 * s2 + fc2 * c2
    tau_cxy := (fc1 - fc2) * cs
    fc1 := fc1
    fc2 := fc2 }

/-- Result tuple of `_evaluate_transverse_residual`, with the source's
component order as named fields (`sigma_y_total` first). -/
structure TransResidual where
  sigma_y_total : ℝ
  sigma_cx : ℝ
  sigma_cy : ℝ
  tau_cxy : ℝ
  fc1 : ℝ
  fc2 : ℝ
  eps_1 : ℝ
  eps_2 : ℝ
  theta : ℝ

/-- `_evaluate_transverse_residual`: total transverse stress (concrete plus
smeared transverse steel) at a trial `eps_y`.  The source's `rho_x` /
`long_material` parameters are unused in its body and are omitted. -/
def _evaluate_transverse_residual (eps_x eps_y gamma_xy : ℝ) (concrete : Concrete)
    (rho_y : ℝ) (stirrup_material : Option ReinforcingSteel) : TransResidual :=
  let ps := _principal_strains eps_x eps_y gamma_xy
  let cst := _concrete_stresses_xy concrete ps.1 ps.2.1 ps.2.2
  let fy_steel :=
    match stirrup_material with
    | some m => if 0 < rho_y then rho_y * m.stress eps_y else 0
    | none => 0
  { sigma_y_total := cst.sigma_cy + fy_steel
    sigma_cx := cst.sigma_cx
    sigma_cy := cst.sigma_cy
    tau_cxy := cst.tau_cxy
    fc1 := cst.fc1
    fc2 := cst.fc2
    eps_1 := ps.1
    eps_2 := ps.2.1
    theta := ps.2.2 }

/-- The Newton-Raphson loop of `solve_mcft_node` on the transverse strain
`eps_y` (the `for _it in range(max_iter)` loop): returns the final trial
`eps_y` together with the `converged` flag.  Fuel counts the remaining
iterations; the flat-tangent branch takes the fixed perturbation step and the
Newton step is clamped to `0.01` and `eps_y` bounded to `[-0.05, 0.05]`,
exactly as in the source. -/
def mcft_iterate (eps_x gamma_xy : ℝ) (concrete : Concrete) (rho_y : ℝ)
    (stirrup_material : Option ReinforcingSteel) (tol : ℝ) :
    ℕ → ℝ → ℝ × Bool
  | 0, eps_y => (eps_y, false)
  | fuel + 1, eps_y =>
    let res := (_evaluate_transverse_residual eps_x eps_y gamma_xy concrete
      rho_y stirrup_material).sigma_y_total
    if |res| < tol then (eps_y, true)
    else
      let deps_y := max (|eps_y| * 1e-6) 1e-10
      let res_plus := (_evaluate_transverse_residual eps_x (eps_y + deps_y)
        gamma_xy concrete rho_y stirrup_material).sigma_y_total
      let d_res := (res_plus - res) / deps_y
      if |d_res| < 1e-12 then
        mcft_iterate eps_x gamma_xy concrete rho_y stirrup_material tol fuel
          (eps_y - 0.001 * (if 0 < res then 1 else -1))
      else
        let delta := -res / d_res
        let delta2 := if 0.01 < |delta| then 0.01 * (if 0 < delta then 1 else -1) else delta
        mcft_iterate eps_x gamma_xy concrete rho_y stirrup_material tol fuel
          (max (-0.05) (min 0.05 (eps_y + delta2)))

/-- The inner loop of `_solve_for_sigma_x_tau`: each call is one Python
iteration, returning the `(sigma_cx, tau_cxy)` of the last residual
evaluation (on convergence, on a flat tangent, or when the iteration budget
runs out — fuel `0` is the final permitted iteration). -/
def sst_iterate (eps_x gamma_xy : ℝ) (concrete : Concrete) (rho_y : ℝ)
    (stirrup_material : Option ReinforcingSteel) (tol : ℝ) :
    ℕ → ℝ → ℝ × ℝ
  | 0, eps_y =>
    let r := _evaluate_transverse_residual eps_x eps_y gamma_xy concrete
      rho_y stirrup_material
    (r.sigma_cx, r.tau_cxy)
  | fuel + 1, eps_y =>
    let r := _evaluate_transverse_residual eps_x eps_y gamma_xy concrete
      rho_y stirrup_material
    if |r.sigma_y_total| < tol then (r.sigma_cx, r.tau_cxy)
    else
      let deps_y := max (|eps_y| * 1e-6) 1e-10
      let res_plus := (_evaluate_transverse_residual eps_x (eps_y + deps_y)
        gamma_xy concrete rho_y stirrup_material).sigma_y_total
      let d_res := (res_plus - r.sigma_y_total) / deps_y
      if |d_res| < 1e-12 then (r.sigma_cx, r.tau_cxy)
      else
        let delta := -r.sigma_y_total / d_res
        let delta2 := if 0.01 < |delta| then 0.01 * (if 0 < delta then 1 else -1) else delta
        sst_iterate eps_x gamma_xy concrete rho_y stirrup_material tol fuel
          (max (-0.05) (min 0.05 (eps_y + delta2)))

/-- `_solve_for_sigma_x_tau`: quick inner solve for `eps_y`, returning
`(sigma_x_total, tau_xy)`; used for the finite-difference condensed tangent.
The source's defaults are `max_iter = 20`, `tol = 1e-3` (passed explicitly
by callers here). -/
def _solve_for_sigma_x_tau (eps_x gamma_xy : ℝ) (concrete : Concrete)
    (rho_y : ℝ) (stirrup_material : Option ReinforcingSteel) (rho_x : ℝ)
    (long_material : Option ReinforcingSteel) (eps_y_init : ℝ)
    (max_iter : ℕ) (tol : ℝ) : ℝ × ℝ :=
  let st := sst_iterate eps_x gamma_xy concrete rho_y stirrup_material tol
    (max_iter - 1) eps_y_init
  let fx_steel :=
    match long_material with
    | some m => if 0 < rho_x then rho_x * m.stress eps_x else 0
    | none => 0
  (st.1 + fx_steel, st.2)

/-- `solve_mcft_node`: the MCFT biaxial node solve.  The `|gamma_xy| < 1e-14`
shortcut returns the uniaxial state; otherwise `eps_y` is iterated until the
free-surface condition holds, the state is re-evaluated at the final `eps_y`
and the condensed 2x2 tangent is obtained by forward finite differences with
step `1e-7`.  Source defaults: `rho_y = 0`, `stirrup_material = none`,
`rho_x = 0`, `long_material = none`, `max_iter = 40`, `tol = 1e-3`. -/
def solve_mcft_node (eps_x gamma_xy : ℝ) (concrete : Concrete) (rho_y : ℝ)
    (stirrup_material : Option ReinforcingSteel) (rho_x : ℝ)
    (long_material : Option ReinforcingSteel) (max_iter : ℕ) (tol : ℝ) :
    MCFTState :=
  if |gamma_xy| < 1e-14 then
    let sigma_cx := concrete.stress eps_x
    let fx_steel :=
      match long_material with
      | some m => if 0 < rho_x then rho_x * m.stress eps_x else 0
      | none => 0
    let Et := concrete.tangent eps_x +
      (match long_material with
       | some m => if 0 < rho_x then rho_x * m.tangent eps_x else 0
       | none => 0)
    { eps_x := eps_x, eps_y := 0, gamma_xy := 0
      eps_1 := max eps_x 0, eps_2 := min eps_x 0, theta := 0
      sigma_x := sigma_cx + fx_steel, sigma_y := 0, tau_xy := 0
      fc1 := max sigma_cx 0, fc2 := min sigma_cx 0
      tangent_xx := Et, tangent_xg := 0, tangent_gx := 0, tangent_gg := 0
      converged := true }
  else
    let r0 := mcft_iterate eps_x gamma_xy concrete rho_y stirrup_material tol
      max_iter (eps_x * 0.5)
    let eps_y := r0.1
    let r := _evaluate_transverse_residual eps_x eps_y gamma_xy concrete
      rho_y stirrup_material
    let fx_steel :=
      match long_material with
      | some m => if 0 < rho_x then rho_x * m.stress eps_x else 0
      | none => 0
    let sigma_x_total := r.sigma_cx + fx_steel
    let h_fd : ℝ := 1e-7
    let state_px := _solve_for_sigma_x_tau (eps_x + h_fd) gamma_xy concrete
      rho_y stirrup_material rho_x long_material eps_y 20 1e-3
    let state_pg := _solve_for_sigma_x_tau eps_x (gamma_xy + h_fd) concrete
      rho_y stirrup_material rho_x long_material eps_y 20 1e-3
    { eps_x := eps_x, eps_y := eps_y, gamma_xy := gamma_xy
      eps_1 := r.eps_1, eps_2 := r.eps_2, theta := r.theta
      sigma_x := sigma_x_total, sigma_y := r.sigma_y_total, tau_xy := r.tau_cxy
      fc1 := r.fc1, fc2 := r.fc2
      tangent_xx := (state_px.1 - sigma_x_total) / h_fd
      tangent_xg := (state_pg.1 - sigma_x_total) / h_fd
      tangent_gx := (state_px.2 - r.tau_cxy) / h_fd
      tangent_gg := (state_pg.2 - r.tau_cxy) / h_fd
      converged := r0.2 }

/-! ### Cross-section (`section/geometry.py`, `section/cross_section.py`) -/

/-- A single horizontal concrete fibre (`ConcreteLayer` dataclass). -/
structure ConcreteLayer where
  y_bot : ℝ
  y_top : ℝ
  width : ℝ
  material : Concrete
  rho_y : ℝ
  stirrup_material : Option ReinforcingSteel

/-- `ConcreteLayer.y_mid` property. -/
def ConcreteLayer.y_mid (l : ConcreteLayer) : ℝ := 0.5 * (l.y_bot + l.y_top)

/-- `ConcreteLayer.thickness` property. -/
def ConcreteLayer.thickness (l : ConcreteLayer) : ℝ := l.y_top - l.y_bot

/-- `ConcreteLayer.area` property. -/
def ConcreteLayer.area (l : ConcreteLayer) : ℝ := l.width * l.thickness

/-- A reinforcing bar group (`RebarBar` dataclass). -/
structure RebarBar where
  y : ℝ
  area : ℝ
  material : ReinforcingSteel

/-- A prestressing tendon (`Tendon` dataclass). -/
structure Tendon where
  y : ℝ
  area : ℝ
  material : PrestressingSteel
  prestrain : ℝ

/-- A 3x3 matrix of reals with the entry layout of the source's
list-of-lists Jacobian. -/
structure Mat3 where
  a00 : ℝ
  a01 : ℝ
  a02 : ℝ
  a10 : ℝ
  a11 : ℝ
  a12 : ℝ
  a20 : ℝ
  a21 : ℝ
  a22 : ℝ

/-- Composite cross-section (`CrossSection` dataclass). -/
structure CrossSection where
  concrete_layers : List ConcreteLayer
  rebars : List RebarBar
  tendons : List Tendon

namespace CrossSection

/-- `CrossSection.height`: `0.0` for an empty layer list, else top of the
last layer minus bottom of the first. -/
def height (s : CrossSection) : ℝ :=
  match s.concrete_layers with
  | [] => 0
  | l :: ls => ((l :: ls).getLast (by simp)).y_top - l.y_bot

/-- `CrossSection.y_bottom` property. -/
def y_bottom (s : CrossSection) : ℝ :=
  match s.concrete_layers with
  | [] => 0
  | l :: _ => l.y_bot

/-- `CrossSection.y_top` property. -/
def y_top (s : CrossSection) : ℝ :=
  match s.concrete_layers with
  | [] => 0
  | l :: ls => ((l :: ls).getLast (by simp)).y_top

/-- `CrossSection.gross_area` property. -/
def gross_area (s : CrossSection) : ℝ :=
  (s.concrete_layers.map ConcreteLayer.area).sum

/-- `CrossSection.centroid_y` property (`0.0` when the gross area is zero). -/
def centroid_y (s : CrossSection) : ℝ :=
  let total_Ay := (s.concrete_layers.map (fun l => l.area * l.y_mid)).sum
  let total_A := s.gross_area
  if total_A = 0 then 0 else total_Ay / total_A

/-- `CrossSection.integrate_forces`: axial force and moment for the linear
strain profile `eps y = eps_0 - phi * (y - y_ref)`, summed over concrete
layers, rebars and tendons (tendons add their prestrain). -/
def integrate_forces (s : CrossSection) (eps_0 phi y_ref : ℝ) : ℝ × ℝ :=
  let c := s.concrete_layers.foldl
    (fun (acc : ℝ × ℝ) lay =>
      let dy := lay.y_mid - y_ref
      let eps := eps_0 - phi * dy
      let f := lay.material.stress eps * lay.area
      (acc.1 + f, acc.2 - f * dy))
    (0, 0)
  let cr := s.rebars.foldl
    (fun (acc : ℝ × ℝ) bar =>
      let dy := bar.y - y_ref
      let eps := eps_0 - phi * dy
      let f := bar.material.stress eps * bar.area
      (acc.1 + f, acc.2 - f * dy))
    c
  s.tendons.foldl
    (fun (acc : ℝ × ℝ) t =>
      let dy := t.y - y_ref
      let eps := eps_0 - phi * dy + t.prestrain
      let f := t.material.stress eps * t.area
      (acc.1 + f, acc.2 - f * dy))
    cr

/-- `CrossSection.integrate_stiffness`: tangent stiffness `(EA, ES, EI)` for
the same strain profile. -/
def integrate_stiffness (s : CrossSection) (eps_0 phi y_ref : ℝ) : ℝ × ℝ × ℝ :=
  let c := s.concrete_layers.foldl
    (fun (acc : ℝ × ℝ × ℝ) lay =>
      let dy := lay.y_mid - y_ref
      let eps := eps_0 - phi * dy
      let ea := lay.material.tangent eps * lay.area
      (acc.1 + ea, acc.2.1 - ea * dy, acc.2.2 + ea * dy * dy))
    (0, 0, 0)
  let cr := s.rebars.foldl
    (fun (acc : ℝ × ℝ × ℝ) bar =>
      let dy := bar.y - y_ref
      let eps := eps_0 - phi * dy
      let ea := bar.material.tangent eps * bar.area
      (acc.1 + ea, acc.2.1 - ea * dy, acc.2.2 + ea * dy * dy))
    c
  s.tendons.foldl
    (fun (acc : ℝ × ℝ × ℝ) t =>
      let dy := t.y - y_ref
      let eps := eps_0 - phi * dy + t.prestrain
      let ea := t.material.tangent eps * t.area
      (acc.1 + ea, acc.2.1 - ea * dy, acc.2.2 + ea * dy * dy))
    cr

/-- `CrossSection.shear_strain_profile`: parabolic factor `s y`, `1.5` at
mid-depth, `0` at the extreme fibres (`1.0` when the depth is nonpositive). -/
def shear_strain_profile (y y_bot y_top : ℝ) : ℝ :=
  let h := y_top - y_bot
  if h ≤ 0 then 1.0
  else
    let y_mid := 0.5 * (y_bot + y_top)
    let eta := 2.0 * (y - y_mid) / h
    1.5 * (1.0 - eta * eta)

/-- `CrossSection.integrate_forces_shear`: `(N, M, V)` with each concrete
layer solved by MCFT at `gamma = gamma_xy0 * s y`, rebars and tendons
uniaxial.  `solve_mcft_node` is called with the source's default
`rho_x = 0`, `long_material = none`, `max_iter = 40`, `tol = 1e-3`. -/
def integrate_forces_shear (s : CrossSection) (eps_0 phi gamma_xy0 y_ref : ℝ) :
    ℝ × ℝ × ℝ :=
  let yb := s.y_bottom
  let yt := s.y_top
  let c := s.concrete_layers.foldl
    (fun (acc : ℝ × ℝ × ℝ) lay =>
      let dy := lay.y_mid - y_ref
      let eps_x := eps_0 - phi * dy
      let sp := shear_strain_profile lay.y_mid yb yt
      let gamma := gamma_xy0 * sp
      let state := solve_mcft_node eps_x gamma lay.material lay.rho_y
        lay.stirrup_material 0 none 40 1e-3
      let f_x := state.sigma_x * lay.area
      let f_v := state.tau_xy * lay.area
      (acc.1 + f_x, acc.2.1 - f_x * dy, acc.2.2 + f_v))
    (0, 0, 0)
  let cr := s.rebars.foldl
    (fun (acc : ℝ × ℝ × ℝ) bar =>
      let dy := bar.y - y_ref
      let eps_x := eps_0 - phi * dy
      let f := bar.material.stress eps_x * bar.area
      (acc.1 + f, acc.2.1 - f * dy, acc.2.2))
    c
  s.tendons.foldl
    (fun (acc : ℝ × ℝ × ℝ) t =>
      let dy := t.y - y_ref
      let eps_x := eps_0 - phi * dy + t.prestrain
      let f := t.material.stress eps_x * t.area
      (acc.1 + f, acc.2.1 - f * dy, acc.2.2))
    cr

/-- `CrossSection.integrate_stiffness_3x3`: 3x3 tangent by forward finite
differences of `integrate_forces_shear` with steps
`h_e = max (|eps_0|*1e-6) 1e-9`, `h_p = max (|phi|*1e-6) 1e-12`,
`h_g = max (|gamma_xy0|*1e-6) 1e-9`. -/
def integrate_stiffness_3x3 (s : CrossSection) (eps_0 phi gamma_xy0 y_ref : ℝ) :
    Mat3 :=
  let F0 := s.integrate_forces_shear eps_0 phi gamma_xy0 y_ref
  let h_e := max (|eps_0| * 1e-6) 1e-9
  let h_p := max (|phi| * 1e-6) 1e-12
  let h_g := max (|gamma_xy0| * 1e-6) 1e-9
  let F1 := s.integrate_forces_shear (eps_0 + h_e) phi gamma_xy0 y_ref
  let F2 := s.integrate_forces_shear eps_0 (phi + h_p) gamma_xy0 y_ref
  let F3 := s.integrate_forces_shear eps_0 phi (gamma_xy0 + h_g) y_ref
  { a00 := (F1.1 - F0.1) / h_e, a01 := (F2.1 - F0.1) / h_p, a02 := (F3.1 - F0.1) / h_g
    a10 := (F1.2.1 - F0.2.1) / h_e, a11 := (F2.2.1 - F0.2.1) / h_p, a12 := (F3.2.1 - F0.2.1) / h_g
    a20 := (F1.2.2 - F0.2.2) / h_e, a21 := (F2.2.2 - F0.2.2) / h_p, a22 := (F3.2.2 - F0.2.2) / h_g }

end CrossSection

/-! ### Moment-curvature analysis (`analysis/moment_curvature.py`) -/

/-- A single point on the moment-curvature response (`MPhiPoint`). -/
structure MPhiPoint where
  curvature : ℝ
  moment : ℝ
  eps_0 : ℝ
  neutral_axis_y : ℝ
  converged : Bool

/-- Full moment-curvature analysis result (`MPhiResult`). -/
structure MPhiResult where
  points : List MPhiPoint
  axial_load : ℝ
  y_ref : ℝ
  cracking_index : Option ℕ
  yield_index : Option ℕ
  ultimate_index : Option ℕ
  failure_reason : String

/-- `MomentCurvatureAnalysis` configuration, after `__init__` has resolved
the `y_ref` and `max_curvature` defaults (`sect` stands for the Python
attribute `section`, a Lean keyword). -/
structure MomentCurvatureAnalysis where
  sect : CrossSection
  axial_load : ℝ
  max_curvature : ℝ
  n_steps : ℕ
  curvature_step : Option ℝ
  y_ref : ℝ
  tol_force : ℝ
  max_iter : ℕ

/-- `MomentCurvatureAnalysis.__init__`: resolves `y_ref` to the section
centroid and `max_curvature` to `0.0035 / (0.1 * h)` when the height is
positive, else to the `1.0e-4` fallback.  Source defaults for the remaining
arguments: `axial_load = 0`, `n_steps = 200`, `curvature_step = none`,
`tol_force = 1`, `max_iter = 50`. -/
def MomentCurvatureAnalysis.init (sect : CrossSection) (axial_load : ℝ)
    (max_curvature : Option ℝ) (n_steps : ℕ) (curvature_step : Option ℝ)
    (y_ref : Option ℝ) (tol_force : ℝ) (max_iter : ℕ) :
    MomentCurvatureAnalysis :=
  { sect := sect
    axial_load := axial_load
    n_steps := n_steps
    curvature_step := curvature_step
    tol_force := tol_force
    max_iter := max_iter
    y_ref :=
      match y_ref with
      | some y => y
      | none => sect.centroid_y
    max_curvature :=
      match max_curvature with
      | some mc => mc
      | none => if 0 < sect.height then 0.0035 / (0.1 * sect.height) else 1e-4 }

/-- Python `int x` truncation toward zero on the reals. -/
def int_trunc (x : ℝ) : ℤ := if 0 ≤ x then ⌊x⌋ else ⌈x⌉

/-- The curvature vector built at the top of `MomentCurvatureAnalysis.run`:
`[i * step for i in 1..n]` with `n = int (max_curvature / step) + 1` when a
`curvature_step` is given, else `[i * dphi for i in 1..n_steps]` with
`dphi = max_curvature / n_steps`.  (Python raises `ZeroDivisionError` for
`n_steps = 0`; here the real division returns `0`.) -/
def build_phis (A : MomentCurvatureAnalysis) : List ℝ :=
  match A.curvature_step with
  | some step =>
    let n : ℤ := int_trunc (A.max_curvature / step) + 1
    (List.range n.toNat).map (fun i : ℕ => ((i : ℝ) + 1) * step)
  | none =>
    let dphi := A.max_curvature / (A.n_steps : ℝ)
    (List.range A.n_steps).map (fun i : ℕ => ((i : ℝ) + 1) * dphi)

/-- The inner Newton-Raphson loop of `MomentCurvatureAnalysis.run` on
`eps_0` at a fixed curvature: returns the final `eps_0` and the `converged`
flag.  Convergence breaks with `|N - axial_load| < tol_force`; a collapsed
axial stiffness `|EA| < 1e-6` breaks without convergence. -/
def newton_axial (sect : CrossSection) (axial_load tol_force y_ref phi : ℝ) :
    ℕ → ℝ → ℝ × Bool
  | 0, eps_0 => (eps_0, false)
  | fuel + 1, eps_0 =>
    let N := (sect.integrate_forces eps_0 phi y_ref).1
    let residual := N - axial_load
    if |residual| < tol_force then (eps_0, true)
    else
      let EA := (sect.integrate_stiffness eps_0 phi y_ref).1
      if |EA| < 1e-6 then (eps_0, false)
      else newton_axial sect axial_load tol_force y_ref phi fuel
        (eps_0 - residual / EA)

/-- `MomentCurvatureAnalysis._check_cracking`. -/
def _check_cracking (sect : CrossSection) (y_ref eps_0 phi : ℝ) : Bool :=
  sect.concrete_layers.any fun lay =>
    decide (lay.material.ecr < eps_0 - phi * (lay.y_mid - y_ref))

/-- `MomentCurvatureAnalysis._check_yield`. -/
def _check_yield (sect : CrossSection) (y_ref eps_0 phi : ℝ) : Bool :=
  sect.rebars.any fun bar =>
    decide (bar.material.ey ≤ |eps_0 - phi * (bar.y - y_ref)|)

/-- `MomentCurvatureAnalysis._check_failure`: first matching failure mode in
source order (concrete crushing, rebar fracture, tendon rupture), else `""`. -/
def _check_failure (sect : CrossSection) (y_ref eps_0 phi : ℝ) : String :=
  if sect.concrete_layers.any (fun lay =>
      decide (eps_0 - phi * (lay.y_mid - y_ref) < -lay.material.ecu)) then
    "concrete_crushing"
  else if sect.rebars.any (fun bar =>
      decide (bar.material.esu ≤ |eps_0 - phi * (bar.y - y_ref)|)) then
    "rebar_fracture"
  else if sect.tendons.any (fun t =>
      decide (t.material.epu ≤ eps_0 - phi * (t.y - y_ref) + t.prestrain)) then
    "tendon_rupture"
  else ""

/-- The curvature sweep of `MomentCurvatureAnalysis.run`: one recursive call
per curvature step, threading the warm-started `eps_0`, the one-shot
cracking/yield flags and the accumulated result.  A failure event or a
non-converged step sets `ultimate_index`/`failure_reason` and stops.
(Python's `float('inf')` neutral axis at `|phi| ≤ 1e-20` is unrepresentable
in `ℝ` and recorded as `0`; no claim reads it.) -/
def run_loop (A : MomentCurvatureAnalysis) :
    List ℝ → ℝ → Bool → Bool → MPhiResult → MPhiResult
  | [], _, _, _, result => result
  | phi :: rest, eps_0, prev_cracked, prev_yielded, result =>
    let nr := newton_axial A.sect A.axial_load A.tol_force A.y_ref phi
      A.max_iter eps_0
    let eps_0' := nr.1
    let converged := nr.2
    let M := (A.sect.integrate_forces eps_0' phi A.y_ref).2
    let na_y := if 1e-20 < |phi| then A.y_ref + eps_0' / phi else 0
    let point : MPhiPoint :=
      { curvature := phi, moment := M, eps_0 := eps_0'
        neutral_axis_y := na_y, converged := converged }
    let points' := result.points ++ [point]
    let do_crack := result.cracking_index.isNone && !prev_cracked &&
      _check_cracking A.sect A.y_ref eps_0' phi
    let cracking_index' :=
      if do_crack then some (points'.length - 1) else result.cracking_index
    let prev_cracked' := if do_crack then true else prev_cracked
    let do_yield := result.yield_index.isNone && !prev_yielded &&
      _check_yield A.sect A.y_ref eps_0' phi
    let yield_index' :=
      if do_yield then some (points'.length - 1) else result.yield_index
    let prev_yielded' := if do_yield then true else prev_yielded
    let failure := _check_failure A.sect A.y_ref eps_0' phi
    if failure ≠ "" then
      { result with
        points := points', cracking_index := cracking_index',
        yield_index := yield_index',
        ultimate_index := some (points'.length - 1), failure_reason := failure }
    else if converged = false then
      { result with
        points := points', cracking_index := cracking_index',
        yield_index := yield_index',
        ultimate_index := some (points'.length - 1),
        failure_reason := "convergence_failure" }
    else
      run_loop A rest eps_0' prev_cracked' prev_yielded'
        { result with
          points := points', cracking_index := cracking_index',
          yield_index := yield_index' }

/-- `MomentCurvatureAnalysis.run`: execute the sweep from the zero initial
guess, then set `ultimate_index` to the last point when the curvature limit
was reached without failure. -/
def MomentCurvatureAnalysis.run (A : MomentCurvatureAnalysis) : MPhiResult :=
  let result0 : MPhiResult :=
    { points := [], axial_load := A.axial_load, y_ref := A.y_ref
      cracking_index := none, yield_index := none, ultimate_index := none
      failure_reason := "" }
  let r := run_loop A (build_phis A) 0 false false result0
  if r.ultimate_index.isNone ∧ r.points ≠ [] then
    { r with ultimate_index := some (r.points.length - 1) }
  else r

/-! ### Longitudinal-stiffness shear-flow engine
(`analysis/longitudinal_stiffness.py`) -/

/-- Shear stress at a specific depth (`ShearStressPoint`). -/
structure ShearStressPoint where
  y : ℝ
  tau : ℝ
  delta_q : ℝ

/-- One entry of the `layer_data` list built in
`compute_shear_stress_distribution`. -/
structure LayerData where
  lay : ConcreteLayer
  dy : ℝ
  s : ℝ
  state : MCFTState
  j : ℝ
  k_g : ℝ

/-- Step 1 of `compute_shear_stress_distribution`: per-layer MCFT state and
the Bentz `j`/`k` tangent-area terms. -/
def layer_data_of (sect : CrossSection) (eps_0 phi gamma_xy0 y_ref : ℝ) :
    List LayerData :=
  let yb := sect.y_bottom
  let yt := sect.y_top
  sect.concrete_layers.map fun lay =>
    let dy := lay.y_mid - y_ref
    let eps_x := eps_0 - phi * dy
    let sp := CrossSection.shear_strain_profile lay.y_mid yb yt
    let gamma := gamma_xy0 * sp
    let state := solve_mcft_node eps_x gamma lay.material lay.rho_y
      lay.stirrup_material 0 none 40 1e-3
    { lay := lay, dy := dy, s := sp, state := state
      j := state.tangent_xx * lay.area
      k_g := state.tangent_xg * lay.area }

/-- Step 2 of `compute_shear_stress_distribution`: assemble the global 3x3
Jacobian from the layer tangents plus uniaxial rebar/tendon stiffness (no
shear row from discrete steel). -/
def assemble_J (sect : CrossSection) (eps_0 phi gamma_xy0 y_ref : ℝ) : Mat3 :=
  let lds := layer_data_of sect eps_0 phi gamma_xy0 y_ref
  let Jc := lds.foldl
    (fun (J : Mat3) ld =>
      let tau_gx := ld.state.tangent_gx * ld.lay.area
      let tau_gg := ld.state.tangent_gg * ld.lay.area
      { a00 := J.a00 + ld.j
        a01 := J.a01 + ld.j * (-ld.dy)
        a02 := J.a02 + ld.k_g * ld.s
        a10 := J.a10 + (-ld.dy) * ld.j
        a11 := J.a11 + ld.dy * ld.dy * ld.j
        a12 := J.a12 + (-ld.dy) * ld.k_g * ld.s
        a20 := J.a20 + tau_gx
        a21 := J.a21 + tau_gx * (-ld.dy)
        a22 := J.a22 + tau_gg * ld.s })
    ⟨0, 0, 0, 0, 0, 0, 0, 0, 0⟩
  let Jr := sect.rebars.foldl
    (fun (J : Mat3) bar =>
      let dy := bar.y - y_ref
      let eps_x := eps_0 - phi * dy
      let ea := bar.material.tangent eps_x * bar.area
      { J with
        a00 := J.a00 + ea, a01 := J.a01 - ea * dy,
        a10 := J.a10 - ea * dy, a11 := J.a11 + ea * dy * dy })
    Jc
  sect.tendons.foldl
    (fun (J : Mat3) t =>
      let dy := t.y - y_ref
      let eps_x := eps_0 - phi * dy + t.prestrain
      let ea := t.material.tangent eps_x * t.area
      { J with
        a00 := J.a00 + ea, a01 := J.a01 - ea * dy,
        a10 := J.a10 - ea * dy, a11 := J.a11 + ea * dy * dy })
    Jr

/-- Determinant of a 3x3 matrix by the source's cofactor formula. -/
def det3 (a : Mat3) : ℝ :=
  a.a00 * (a.a11 * a.a22 - a.a12 * a.a21)
    - a.a01 * (a.a10 * a.a22 - a.a12 * a.a20)
    + a.a02 * (a.a10 * a.a21 - a.a11 * a.a20)

/-- `_solve_3x3`: Cramer's rule; `none` when `|det| < 1e-30`. -/
def _solve_3x3 (A : Mat3) (b0 b1 b2 : ℝ) : Option (ℝ × ℝ × ℝ) :=
  let det := det3 A
  if |det| < 1e-30 then none
  else
    some (det3 { A with a00 := b0, a10 := b1, a20 := b2 } / det,
      det3 { A with a01 := b0, a11 := b1, a21 := b2 } / det,
      det3 { A with a02 := b0, a12 := b1, a22 := b2 } / det)

/-- `compute_shear_stress_distribution`: per-layer shear flow rate
`delta_q = j * d_eps_x + k * d_gamma` from the unit-moment virtual-strain
solve, integrated cumulatively from the top fibre downward; a singular 3x3
system yields the all-zero profile. -/
def compute_shear_stress_distribution (sect : CrossSection)
    (eps_0 phi gamma_xy0 y_ref : ℝ) : List ShearStressPoint :=
  match sect.concrete_layers with
  | [] => []
  | _ :: _ =>
    let lds := layer_data_of sect eps_0 phi gamma_xy0 y_ref
    let J := assemble_J sect eps_0 phi gamma_xy0 y_ref
    match _solve_3x3 J 0 1.0 0 with
    | none =>
      sect.concrete_layers.map fun lay =>
        { y := lay.y_mid, tau := 0, delta_q := 0 }
    | some (d_eps0, d_phi, d_gamma0) =>
      let with_dq := lds.map fun ld =>
        let d_eps_x := d_eps0 - d_phi * ld.dy
        let d_gamma := d_gamma0 * ld.s
        (ld, ld.j * d_eps_x + ld.k_g * d_gamma)
      let r := with_dq.reverse.foldl
        (fun (acc : ℝ × List ShearStressPoint) p =>
          let q := acc.1 + p.2 * p.1.lay.thickness
          let tau := if 0 < p.1.lay.width then q / p.1.lay.width else 0
          (q, acc.2 ++ [{ y := p.1.lay.y_mid, tau := tau, delta_q := p.2 }]))
        (0, [])
      r.2.reverse

/-! ### V-gamma shear response solver (`analysis/shear_analysis.py`) -/

/-- A single point on the V-gamma response curve (`VGammaPoint`). -/
structure VGammaPoint where
  gamma_xy0 : ℝ
  shear_force : ℝ
  moment : ℝ
  eps_0 : ℝ
  curvature : ℝ
  converged : Bool

/-- Result of a V-gamma shear analysis (`VGammaResult`). -/
structure VGammaResult where
  points : List VGammaPoint

/-- `ShearAnalysis` configuration after `__init__` resolved `y_ref`
(`sect` stands for the Python attribute `section`).  Source defaults:
`axial_load = 0`, `moment = 0`, `gamma_max = 0.01`, `n_steps = 50`,
`max_iter = 30`, `tol_force = 1`, `tol_moment = 100`. -/
structure ShearAnalysis where
  sect : CrossSection
  axial_load : ℝ
  moment : ℝ
  y_ref : ℝ
  gamma_max : ℝ
  n_steps : ℕ
  max_iter : ℕ
  tol_force : ℝ
  tol_moment : ℝ

/-- The inner 2-DOF Newton-Raphson loop of `ShearAnalysis.run` on
`(eps_0, phi)` at a fixed average shear strain: fuel `0` is the final
permitted iteration, so the whole loop is `vg_newton (max_iter - 1)`.
Returns `(eps_0, phi, (N, M, V), converged)` with `(N, M, V)` the forces of
the last evaluation.  A singular 2x2 block (`|det| < 1e-20`) breaks without
convergence; Newton steps are clamped to `0.001` / `1e-4`. -/
def vg_newton (sa : ShearAnalysis) (gamma_xy0 : ℝ) :
    ℕ → ℝ → ℝ → ℝ × ℝ × (ℝ × ℝ × ℝ) × Bool
  | 0, eps_0, phi =>
    let F := sa.sect.integrate_forces_shear eps_0 phi gamma_xy0 sa.y_ref
    let res_N := F.1 - sa.axial_load
    let res_M := F.2.1 - sa.moment
    if |res_N| < sa.tol_force ∧ |res_M| < sa.tol_moment then
      (eps_0, phi, F, true)
    else
      let J := sa.sect.integrate_stiffness_3x3 eps_0 phi gamma_xy0 sa.y_ref
      let det := J.a00 * J.a11 - J.a01 * J.a10
      if |det| < 1e-20 then (eps_0, phi, F, false)
      else
        let d_eps0 := (-J.a11 * res_N + J.a01 * res_M) / det
        let d_phi := (J.a10 * res_N - J.a00 * res_M) / det
        let d_eps0' :=
          if 0.001 < |d_eps0| then 0.001 * (if 0 < d_eps0 then 1 else -1) else d_eps0
        let d_phi' :=
          if 1e-4 < |d_phi| then 1e-4 * (if 0 < d_phi then 1 else -1) else d_phi
        (eps_0 + d_eps0', phi + d_phi', F, false)
  | fuel + 1, eps_0, phi =>
    let F := sa.sect.integrate_forces_shear eps_0 phi gamma_xy0 sa.y_ref
    let res_N := F.1 - sa.axial_load
    let res_M := F.2.1 - sa.moment
    if |res_N| < sa.tol_force ∧ |res_M| < sa.tol_moment then
      (eps_0, phi, F, true)
    else
      let J := sa.sect.integrate_stiffness_3x3 eps_0 phi gamma_xy0 sa.y_ref
      let det := J.a00 * J.a11 - J.a01 * J.a10
      if |det| < 1e-20 then (eps_0, phi, F, false)
      else
        let d_eps0 := (-J.a11 * res_N + J.a01 * res_M) / det
        let d_phi := (J.a10 * res_N - J.a00 * res_M) / det
        let d_eps0' :=
          if 0.001 < |d_eps0| then 0.001 * (if 0 < d_eps0 then 1 else -1) else d_eps0
        let d_phi' :=
          if 1e-4 < |d_phi| then 1e-4 * (if 0 < d_phi then 1 else -1) else d_phi
        vg_newton sa gamma_xy0 fuel (eps_0 + d_eps0') (phi + d_phi')

/-- The shear-strain sweep of `ShearAnalysis.run` (`for step in
range(n_steps + 1)`), warm-starting `(eps_0, phi)`: appends one
`VGammaPoint` per step (recomputing forces when converged) and stops after
a non-converged step with `step > 0`. -/
def vg_outer (sa : ShearAnalysis) :
    ℕ → ℕ → ℝ → ℝ → List VGammaPoint → List VGammaPoint
  | 0, _, _, _, pts => pts
  | left + 1, step, eps_0, phi, pts =>
    let d_gamma := sa.gamma_max / (sa.n_steps : ℝ)
    let gamma_xy0 := (step : ℝ) * d_gamma
    let r := vg_newton sa gamma_xy0 (sa.max_iter - 1) eps_0 phi
    let eps_0' := r.1
    let phi' := r.2.1
    let converged := r.2.2.2
    let F :=
      if converged then sa.sect.integrate_forces_shear eps_0' phi' gamma_xy0 sa.y_ref
      else r.2.2.1
    let pt : VGammaPoint :=
      { gamma_xy0 := gamma_xy0, shear_force := F.2.2, moment := F.2.1
        eps_0 := eps_0', curvature := phi', converged := converged }
    let pts' := pts ++ [pt]
    if converged = false ∧ 0 < step then pts'
    else vg_outer sa left (step + 1) eps_0' phi' pts'

/-- `ShearAnalysis.run`: sweep `n_steps + 1` shear-strain steps from zero. -/
def ShearAnalysis.run (sa : ShearAnalysis) : VGammaResult :=
  ⟨vg_outer sa (sa.n_steps + 1) 0 0 0 []⟩

/-! ### Concrete instances used by witnesses and counterexamples -/

/-- A zero-depth section: no concrete layers, no reinforcement. -/
def emptySection : CrossSection := ⟨[], [], []⟩

/-- A linear-elastic concrete sample used by witnesses. -/
def linConcrete : Concrete :=
  { stress := fun e => 2000 * e
    tangent := fun _ => 2000
    Ec := 2000
    ft := 1
    ecu := 0.0035
    compression_stress_softened := fun e _ => 2000 * e }

/-- A fully degenerate (zero-stiffness, zero-stress) concrete: models a
crushed/softened material whose backbone carries nothing. -/
def zeroConcrete : Concrete :=
  { stress := fun _ => 0
    tangent := fun _ => 0
    Ec := 0
    ft := 0
    ecu := 0.0035
    compression_stress_softened := fun _ _ => 0 }

/-- One 100 mm x 10 mm layer of the degenerate concrete. -/
def zeroLayer : ConcreteLayer := ⟨0, 100, 10, zeroConcrete, 0, none⟩

/-- A one-layer section of the degenerate concrete. -/
def zeroSection : CrossSection := ⟨[zeroLayer], [], []⟩

/-- Shear analysis of the degenerate section under an unreachable axial
load of 10 N: every 2x2 tangent block is singular. -/
def saZero10 : ShearAnalysis := ⟨zeroSection, 10, 0, 50, 0.01, 1, 1, 1, 100⟩

/-- Shear analysis of the degenerate section with zero applied loads:
every step converges immediately. -/
def saZero0 : ShearAnalysis := ⟨zeroSection, 0, 0, 50, 0.01, 2, 1, 1, 100⟩

/-! ### Claim C2: axial equilibrium at converged moment-curvature points -/

theorem newton_axial_true (sect : CrossSection) (load tol y_ref phi : ℝ) :
    ∀ (fuel : ℕ) (e : ℝ),
      (newton_axial sect load tol y_ref phi fuel e).2 = true →
      |(sect.integrate_forces (newton_axial sect load tol y_ref phi fuel e).1
        phi y_ref).1 - load| < tol := by
  intro fuel
  induction fuel with
  | zero =>
    intro e h
    simp only [newton_axial] at h
    exact absurd h (by simp)
  | succ f ih =>
    intro e h
    simp only [newton_axial] at h ⊢
    split_ifs at h ⊢ with h1 h2
    · exact h1
    · exact ih _ h

theorem run_loop_equilibrium (A : MomentCurvatureAnalysis) :
    ∀ (phis : List ℝ) (e : ℝ) (pc py : Bool) (acc : MPhiResult),
      (∀ p ∈ acc.points, p.converged = true →
        |(A.sect.integrate_forces p.eps_0 p.curvature A.y_ref).1 -
          A.axial_load| < A.tol_force) →
      ∀ p ∈ (run_loop A phis e pc py acc).points, p.converged = true →
        |(A.sect.integrate_forces p.eps_0 p.curvature A.y_ref).1 -
          A.axial_load| < A.tol_force := by
  intro phis
  induction phis with
  | nil =>
    intro e pc py acc hacc
    simpa only [run_loop] using hacc
  | cons phi rest ih =>
    intro e pc py acc hacc
    have hstep : ∀ (M na : ℝ), ∀ p ∈ acc.points ++
        [MPhiPoint.mk phi M
          (newton_axial A.sect A.axial_load A.tol_force A.y_ref phi A.max_iter e).1
          na
          (newton_axial A.sect A.axial_load A.tol_force A.y_ref phi A.max_iter e).2],
        p.converged = true →
        |(A.sect.integrate_forces p.eps_0 p.curvature A.y_ref).1 -
          A.axial_load| < A.tol_force := by
      intro M na p hp
      rcases List.mem_append.mp hp with hmem | hmem
      · exact hacc p hmem
      · rcases List.mem_singleton.mp hmem with rfl
        intro hc
        exact newton_axial_true A.sect A.axial_load A.tol_force A.y_ref phi
          A.max_iter e hc
    simp only [run_loop]
    split_ifs <;>
      first
        | exact hstep _ _
        | exact ih _ _ _ _ (hstep _ _)

/-- Claim C2: every point of a moment-curvature run recorded with
`converged = true` satisfies the axial equilibrium bound
`|N(eps_0, curvature) - axial_load| < tol_force`, with `N` re-evaluated by
`integrate_forces` at the recorded point. -/
theorem mphi_converged_equilibrium (A : MomentCurvatureAnalysis) (p : MPhiPoint)
    (hp : p ∈ (MomentCurvatureAnalysis.run A).points) (hc : p.converged = true) :
    |(A.sect.integrate_forces p.eps_0 p.curvature A.y_ref).1 - A.axial_load| <
      A.tol_force := by
  have hpts : (MomentCurvatureAnalysis.run A).points =
      (run_loop A (build_phis A) 0 false false
        { points := [], axial_load := A.axial_load, y_ref := A.y_ref
          cracking_index := none, yield_index := none, ultimate_index := none
          failure_reason := "" }).points := by
    rw [MomentCurvatureAnalysis.run]
    split_ifs <;> rfl
  rw [hpts] at hp
  exact run_loop_equilibrium A (build_phis A) 0 false false _ (by simp) p hp hc

/-! ### Claim C6: behaviour on a zero-depth (empty) section -/

theorem integrate_forces_empty (sect : CrossSection)
    (h1 : sect.concrete_layers = []) (h2 : sect.rebars = [])
    (h3 : sect.tendons = []) (e p y : ℝ) :
    sect.integrate_forces e p y = (0, 0) := by
  simp [CrossSection.integrate_forces, h1, h2, h3]

theorem check_failure_empty (sect : CrossSection)
    (h1 : sect.concrete_layers = []) (h2 : sect.rebars = [])
    (h3 : sect.tendons = []) (y e p : ℝ) :
    _check_failure sect y e p = "" := by
  simp [_check_failure, h1, h2, h3]

/-- On a section with no fibres at all and zero applied load, every
curvature step converges instantly to the warm-started `eps_0`, no event
fires, and the loop appends one converged zero-moment point per step. -/
theorem run_loop_empty_points (A : MomentCurvatureAnalysis)
    (h1 : A.sect.concrete_layers = []) (h2 : A.sect.rebars = [])
    (h3 : A.sect.tendons = []) (ha : A.axial_load = 0)
    (htol : 0 < A.tol_force) (hmi : 1 ≤ A.max_iter) :
    ∀ (phis : List ℝ) (e : ℝ) (pc py : Bool) (acc : MPhiResult),
      (run_loop A phis e pc py acc).points = acc.points ++
        phis.map (fun phi => MPhiPoint.mk phi 0 e
          (if 1e-20 < |phi| then A.y_ref + e / phi else 0) true) := by
  intro phis
  induction phis with
  | nil =>
    intro e pc py acc
    simp [run_loop]
  | cons phi rest ih =>
    intro e pc py acc
    obtain ⟨f, hf⟩ : ∃ f, A.max_iter = f + 1 := ⟨A.max_iter - 1, by omega⟩
    have hN : ∀ e' p', A.sect.integrate_forces e' p' A.y_ref = (0, 0) :=
      fun e' p' => integrate_forces_empty A.sect h1 h2 h3 e' p' A.y_ref
    have hnewton : newton_axial A.sect A.axial_load A.tol_force A.y_ref phi
        A.max_iter e = (e, true) := by
      rw [hf]
      simp only [newton_axial, hN, ha]
      rw [if_pos (by simpa using htol)]
    have hfail : ∀ e', _check_failure A.sect A.y_ref e' phi = "" :=
      fun e' => check_failure_empty A.sect h1 h2 h3 A.y_ref e' phi
    simp only [run_loop, hnewton, hN, hfail, ne_eq, not_true_eq_false,
      Bool.true_eq_false, if_false]
    rw [ih]
    simp

theorem build_phis_length_none (A : MomentCurvatureAnalysis)
    (h : A.curvature_step = none) : (build_phis A).length = A.n_steps := by
  simp only [build_phis, h, List.length_map, List.length_range]

/-- Counterexample to C6 as stated: the run on a zero-depth section is not
rejected and returns a (converged) point — here one point for one step. -/
theorem mphi_zero_depth_counterexample :
    (MomentCurvatureAnalysis.init emptySection 0 none 1 none none 1 50).run.points
      ≠ [] := by
  have hpts : (MomentCurvatureAnalysis.init emptySection 0 none 1 none none 1 50).run.points =
      (run_loop (MomentCurvatureAnalysis.init emptySection 0 none 1 none none 1 50)
        (build_phis (MomentCurvatureAnalysis.init emptySection 0 none 1 none none 1 50))
        0 false false
        { points := [], axial_load := 0, y_ref :=
            (MomentCurvatureAnalysis.init emptySection 0 none 1 none none 1 50).y_ref
          cracking_index := none, yield_index := none, ultimate_index := none
          failure_reason := "" }).points := by
    rw [MomentCurvatureAnalysis.run]
    split_ifs <;> rfl
  rw [hpts, run_loop_empty_points _ rfl rfl rfl rfl
    (by norm_num [MomentCurvatureAnalysis.init])
    (by norm_num [MomentCurvatureAnalysis.init])]
  simp [build_phis, MomentCurvatureAnalysis.init]

/-- Claim C6 (amended): a zero-depth section is not a fatal error.  The
constructor falls back to `max_curvature = 1e-4`, and on a section with no
fibres at all (and zero applied load) the run returns one converged,
zero-moment point per curvature step — partial results, not a rejection. -/
theorem mphi_zero_depth_not_fatal (sect : CrossSection)
    (h1 : sect.concrete_layers = []) (h2 : sect.rebars = [])
    (h3 : sect.tendons = []) (n_steps mi : ℕ) (tol : ℝ)
    (htol : 0 < tol) (hmi : 1 ≤ mi) :
    (MomentCurvatureAnalysis.init sect 0 none n_steps none none tol mi).max_curvature
      = 1e-4 ∧
    (MomentCurvatureAnalysis.init sect 0 none n_steps none none tol mi).run.points.length
      = n_steps ∧
    ∀ p ∈ (MomentCurvatureAnalysis.init sect 0 none n_steps none none tol mi).run.points,
      p.converged = true ∧ p.moment = 0 := by
  have hpts : (MomentCurvatureAnalysis.init sect 0 none n_steps none none tol mi).run.points =
      (run_loop (MomentCurvatureAnalysis.init sect 0 none n_steps none none tol mi)
        (build_phis (MomentCurvatureAnalysis.init sect 0 none n_steps none none tol mi))
        0 false false
        { points := [], axial_load := 0, y_ref :=
            (MomentCurvatureAnalysis.init sect 0 none n_steps none none tol mi).y_ref
          cracking_index := none, yield_index := none, ultimate_index := none
          failure_reason := "" }).points := by
    rw [MomentCurvatureAnalysis.run]
    split_ifs <;> rfl
  refine ⟨?_, ?_, ?_⟩
  · simp [MomentCurvatureAnalysis.init, CrossSection.height, h1]
  · rw [hpts, run_loop_empty_points _ h1 h2 h3 rfl
      (by simpa [MomentCurvatureAnalysis.init] using htol)
      (by simpa [MomentCurvatureAnalysis.init] using hmi)]
    rw [List.nil_append, List.length_map, build_phis_length_none _ rfl]
    rfl
  · intro p hp
    rw [hpts, run_loop_empty_points _ h1 h2 h3 rfl
      (by simpa [MomentCurvatureAnalysis.init] using htol)
      (by simpa [MomentCurvatureAnalysis.init] using hmi)] at hp
    simp only [List.nil_append, List.mem_map] at hp
    obtain ⟨phi, _, rfl⟩ := hp
    exact ⟨rfl, rfl⟩

/-- Witness for the amended C6: the empty section, one step. -/
theorem mphi_zero_depth_not_fatal_witness :
    emptySection.concrete_layers = [] ∧ (0 : ℝ) < 1 ∧ 1 ≤ 50 ∧
    ((MomentCurvatureAnalysis.init emptySection 0 none 1 none none 1 50).max_curvature
        = 1e-4 ∧
      (MomentCurvatureAnalysis.init emptySection 0 none 1 none none 1 50).run.points.length
        = 1 ∧
      ∀ p ∈ (MomentCurvatureAnalysis.init emptySection 0 none 1 none none 1 50).run.points,
        p.converged = true ∧ p.moment = 0) :=
  ⟨rfl, by norm_num, by norm_num,
   mphi_zero_depth_not_fatal emptySection rfl rfl rfl 1 50 1 (by norm_num)
     (by norm_num)⟩

/-! ### Claim C4: monotone curvature sweep, truncated at first failure -/

theorem build_phis_none (A : MomentCurvatureAnalysis)
    (h : A.curvature_step = none) :
    build_phis A = (List.range A.n_steps).map
      (fun i : ℕ => ((i : ℝ) + 1) * (A.max_curvature / (A.n_steps : ℝ))) := by
  simp only [build_phis, h]

theorem run_loop_pairwise (A : MomentCurvatureAnalysis) :
    ∀ (phis : List ℝ) (e : ℝ) (pc py : Bool) (acc : MPhiResult),
      List.Pairwise (· < ·) (acc.points.map MPhiPoint.curvature ++ phis) →
      List.Pairwise (· < ·)
        ((run_loop A phis e pc py acc).points.map MPhiPoint.curvature) := by
  intro phis
  induction phis with
  | nil =>
    intro e pc py acc h
    simpa only [run_loop, List.append_nil] using h
  | cons phi rest ih =>
    intro e pc py acc h
    rw [show acc.points.map MPhiPoint.curvature ++ phi :: rest =
      (acc.points.map MPhiPoint.curvature ++ [phi]) ++ rest by simp] at h
    have hleft := (List.pairwise_append.mp h).1
    simp only [run_loop]
    split_ifs <;>
      first
        | exact ih _ _ _ _ (by simpa using h)
        | simpa using hleft

theorem run_loop_truncation (A : MomentCurvatureAnalysis) :
    ∀ (phis : List ℝ) (e : ℝ) (pc py : Bool) (acc : MPhiResult),
      (∀ p ∈ acc.points, p.converged = true ∧
        _check_failure A.sect A.y_ref p.eps_0 p.curvature = "") →
      ∀ p ∈ (run_loop A phis e pc py acc).points.dropLast,
        p.converged = true ∧
        _check_failure A.sect A.y_ref p.eps_0 p.curvature = "" := by
  intro phis
  induction phis with
  | nil =>
    intro e pc py acc hacc p hp
    simp only [run_loop] at hp
    exact hacc p (List.dropLast_subset _ hp)
  | cons phi rest ih =>
    intro e pc py acc hacc
    simp only [run_loop]
    by_cases hfail : _check_failure A.sect A.y_ref
        (newton_axial A.sect A.axial_load A.tol_force A.y_ref phi A.max_iter e).1
        phi = ""
    · rw [if_neg (fun hc => hc hfail)]
      by_cases hconv : (newton_axial A.sect A.axial_load A.tol_force A.y_ref phi
          A.max_iter e).2 = false
      · rw [if_pos hconv]
        intro p hp
        rw [List.dropLast_concat] at hp
        exact hacc p hp
      · rw [if_neg hconv]
        refine ih _ _ _ _ ?_
        intro p hp
        rcases List.mem_append.mp hp with hmem | hmem
        · exact hacc p hmem
        · rcases List.mem_singleton.mp hmem with rfl
          refine ⟨?_, hfail⟩
          revert hconv
          cases (newton_axial A.sect A.axial_load A.tol_force A.y_ref phi
            A.max_iter e).2 <;> simp
    · rw [if_pos hfail]
      intro p hp
      rw [List.dropLast_concat] at hp
      exact hacc p hp

theorem build_phis_some (A : MomentCurvatureAnalysis) (s : ℝ)
    (h : A.curvature_step = some s) :
    build_phis A = (List.range (int_trunc (A.max_curvature / s) + 1).toNat).map
      (fun i : ℕ => ((i : ℝ) + 1) * s) := by
  simp only [build_phis, h]

/-- Counterexample to C4 as stated: a run with a user-supplied negative
`max_curvature` records strictly *decreasing* curvatures, so the full
point sequence of every run is not ordered by strictly increasing
curvature. -/
theorem mphi_monotone_counterexample :
    ¬ List.Pairwise (· < ·)
      ((MomentCurvatureAnalysis.init emptySection 0 (some (-1e-4)) 2 none none
        1 50).run.points.map MPhiPoint.curvature) := by
  have hpts : (MomentCurvatureAnalysis.init emptySection 0 (some (-1e-4)) 2 none none 1 50).run.points =
      (run_loop (MomentCurvatureAnalysis.init emptySection 0 (some (-1e-4)) 2 none none 1 50)
        (build_phis (MomentCurvatureAnalysis.init emptySection 0 (some (-1e-4)) 2 none none 1 50))
        0 false false
        { points := [], axial_load := 0, y_ref :=
            (MomentCurvatureAnalysis.init emptySection 0 (some (-1e-4)) 2 none none 1 50).y_ref
          cracking_index := none, yield_index := none, ultimate_index := none
          failure_reason := "" }).points := by
    rw [MomentCurvatureAnalysis.run]
    split_ifs <;> rfl
  rw [hpts, run_loop_empty_points _ rfl rfl rfl rfl
    (by norm_num [MomentCurvatureAnalysis.init])
    (by norm_num [MomentCurvatureAnalysis.init])]
  intro hpair
  simp [build_phis, MomentCurvatureAnalysis.init, List.range_succ] at hpair
  norm_num at hpair

/-- Claim C4 (amended): for every moment-curvature run, the sweep is
truncated at the first step that triggers a physical failure event or
fails to converge — every recorded point except the last is converged and
triggered no failure event.  The recorded points are ordered by strictly
increasing curvature whenever the curvature increment is positive: on the
default path when `curvature_step = none` with positive `max_curvature`
and step count, and on the explicit path for any positive
`curvature_step`.  (A nonpositive increment, e.g. a negative
`max_curvature`, breaks the strict monotonicity.) -/
theorem mphi_sweep_monotone_truncated (A : MomentCurvatureAnalysis) :
    (∀ p ∈ A.run.points.dropLast, p.converged = true ∧
      _check_failure A.sect A.y_ref p.eps_0 p.curvature = "") ∧
    (((A.curvature_step = none ∧ 0 < A.max_curvature ∧ 0 < A.n_steps) ∨
        (∃ s, A.curvature_step = some s ∧ 0 < s)) →
      List.Pairwise (· < ·) (A.run.points.map MPhiPoint.curvature)) := by
  have hpts : A.run.points = (run_loop A (build_phis A) 0 false false
      { points := [], axial_load := A.axial_load, y_ref := A.y_ref
        cracking_index := none, yield_index := none, ultimate_index := none
        failure_reason := "" }).points := by
    rw [MomentCurvatureAnalysis.run]
    split_ifs <;> rfl
  constructor
  · rw [hpts]
    exact run_loop_truncation A (build_phis A) 0 false false _ (by simp)
  · intro hpos
    rw [hpts]
    apply run_loop_pairwise
    simp only [List.map_nil, List.nil_append]
    rcases hpos with ⟨hcs, hmc, hns⟩ | ⟨s, hcs, hs⟩
    · rw [build_phis_none A hcs]
      have hd : 0 < A.max_curvature / (A.n_steps : ℝ) :=
        div_pos hmc (by exact_mod_cast hns)
      refine List.Pairwise.map _ ?_ (List.pairwise_lt_range A.n_steps)
      intro a b hab
      have : (a : ℝ) + 1 < (b : ℝ) + 1 := by exact_mod_cast Nat.succ_lt_succ hab
      exact mul_lt_mul_of_pos_right this hd
    · rw [build_phis_some A s hcs]
      refine List.Pairwise.map _ ?_ (List.pairwise_lt_range _)
      intro a b hab
      have : (a : ℝ) + 1 < (b : ℝ) + 1 := by exact_mod_cast Nat.succ_lt_succ hab
      exact mul_lt_mul_of_pos_right this hs

/-- The two-step run on the empty section, evaluated: two converged points
at curvatures `5e-5` and `1e-4`. -/
theorem mcEmpty2_run_points :
    (MomentCurvatureAnalysis.init emptySection 0 none 2 none none 1 50).run.points
      = [MPhiPoint.mk 5e-5 0 0 0 true, MPhiPoint.mk 1e-4 0 0 0 true] := by
  have hpts : (MomentCurvatureAnalysis.init emptySection 0 none 2 none none 1 50).run.points =
      (run_loop (MomentCurvatureAnalysis.init emptySection 0 none 2 none none 1 50)
        (build_phis (MomentCurvatureAnalysis.init emptySection 0 none 2 none none 1 50))
        0 false false
        { points := [], axial_load := 0, y_ref :=
            (MomentCurvatureAnalysis.init emptySection 0 none 2 none none 1 50).y_ref
          cracking_index := none, yield_index := none, ultimate_index := none
          failure_reason := "" }).points := by
    rw [MomentCurvatureAnalysis.run]
    split_ifs <;> rfl
  rw [hpts, run_loop_empty_points _ rfl rfl rfl rfl
    (by norm_num [MomentCurvatureAnalysis.init])
    (by norm_num [MomentCurvatureAnalysis.init])]
  have hh : emptySection.height = 0 := rfl
  have hcy : emptySection.centroid_y = 0 := by
    simp [CrossSection.centroid_y, CrossSection.gross_area, emptySection]
  simp [build_phis, MomentCurvatureAnalysis.init, hh, hcy, List.range_succ]
  norm_num

/-- Witness for the amended C4: the two-step empty-section run — the
non-last point is converged with no failure event, the default-path
positivity hypotheses hold, and the two curvatures strictly increase. -/
theorem mphi_sweep_monotone_truncated_witness :
    (MPhiPoint.mk 5e-5 0 0 0 true ∈
      (MomentCurvatureAnalysis.init emptySection 0 none 2 none none 1 50).run.points.dropLast) ∧
    ((MPhiPoint.mk 5e-5 0 0 0 true).converged = true ∧
      _check_failure (MomentCurvatureAnalysis.init emptySection 0 none 2 none none 1 50).sect
        (MomentCurvatureAnalysis.init emptySection 0 none 2 none none 1 50).y_ref
        (MPhiPoint.mk 5e-5 0 0 0 true).eps_0
        (MPhiPoint.mk 5e-5 0 0 0 true).curvature = "") ∧
    ((MomentCurvatureAnalysis.init emptySection 0 none 2 none none 1 50).curvature_step = none ∧
      0 < (MomentCurvatureAnalysis.init emptySection 0 none 2 none none 1 50).max_curvature ∧
      0 < (MomentCurvatureAnalysis.init emptySection 0 none 2 none none 1 50).n_steps) ∧
    List.Pairwise (· < ·)
      ((MomentCurvatureAnalysis.init emptySection 0 none 2 none none 1 50).run.points.map
        MPhiPoint.curvature) := by
  have hmem : MPhiPoint.mk 5e-5 0 0 0 true ∈
      (MomentCurvatureAnalysis.init emptySection 0 none 2 none none 1 50).run.points.dropLast := by
    rw [mcEmpty2_run_points]
    simp
  have hmc : (0 : ℝ) <
      (MomentCurvatureAnalysis.init emptySection 0 none 2 none none 1 50).max_curvature := by
    norm_num [MomentCurvatureAnalysis.init, CrossSection.height, emptySection]
  have hns : 0 < (MomentCurvatureAnalysis.init emptySection 0 none 2 none none 1 50).n_steps := by
    norm_num [MomentCurvatureAnalysis.init]
  exact ⟨hmem,
    (mphi_sweep_monotone_truncated _).1 _ hmem,
    ⟨rfl, hmc, hns⟩,
    (mphi_sweep_monotone_truncated _).2 (Or.inl ⟨rfl, hmc, hns⟩)⟩

/-- The one-step run on the empty section, evaluated: a single converged
point at curvature `1e-4` with zero moment and zero reference strain. -/
theorem mcEmpty_run_points :
    (MomentCurvatureAnalysis.init emptySection 0 none 1 none none 1 50).run.points
      = [MPhiPoint.mk 1e-4 0 0 0 true] := by
  have hpts : (MomentCurvatureAnalysis.init emptySection 0 none 1 none none 1 50).run.points =
      (run_loop (MomentCurvatureAnalysis.init emptySection 0 none 1 none none 1 50)
        (build_phis (MomentCurvatureAnalysis.init emptySection 0 none 1 none none 1 50))
        0 false false
        { points := [], axial_load := 0, y_ref :=
            (MomentCurvatureAnalysis.init emptySection 0 none 1 none none 1 50).y_ref
          cracking_index := none, yield_index := none, ultimate_index := none
          failure_reason := "" }).points := by
    rw [MomentCurvatureAnalysis.run]
    split_ifs <;> rfl
  rw [hpts, run_loop_empty_points _ rfl rfl rfl rfl
    (by norm_num [MomentCurvatureAnalysis.init])
    (by norm_num [MomentCurvatureAnalysis.init])]
  have hh : emptySection.height = 0 := rfl
  have hcy : emptySection.centroid_y = 0 := by
    simp [CrossSection.centroid_y, CrossSection.gross_area, emptySection]
  simp [build_phis, MomentCurvatureAnalysis.init, hh, hcy, List.range_succ]

/-- Witness for C2: the converged point of the one-step empty-section run
satisfies the axial-equilibrium bound. -/
theorem mphi_converged_equilibrium_witness :
    MPhiPoint.mk 1e-4 0 0 0 true ∈
      (MomentCurvatureAnalysis.init emptySection 0 none 1 none none 1 50).run.points ∧
    (MPhiPoint.mk 1e-4 0 0 0 true).converged = true ∧
    |((MomentCurvatureAnalysis.init emptySection 0 none 1 none none 1 50).sect.integrate_forces
        (MPhiPoint.mk 1e-4 0 0 0 true).eps_0 (MPhiPoint.mk 1e-4 0 0 0 true).curvature
        (MomentCurvatureAnalysis.init emptySection 0 none 1 none none 1 50).y_ref).1 -
      (MomentCurvatureAnalysis.init emptySection 0 none 1 none none 1 50).axial_load| <
      (MomentCurvatureAnalysis.init emptySection 0 none 1 none none 1 50).tol_force := by
  have hp : MPhiPoint.mk 1e-4 0 0 0 true ∈
      (MomentCurvatureAnalysis.init emptySection 0 none 1 none none 1 50).run.points := by
    rw [mcEmpty_run_points]
    exact List.mem_singleton.mpr rfl
  exact ⟨hp, rfl, mphi_converged_equilibrium _ _ hp rfl⟩

/-! ### Oddness of `atan2` and the Mohr's-circle angle -/

theorem atan2_neg_left (y x : ℝ) (hy : y ≠ 0) : atan2 (-y) x = -atan2 y x := by
  unfold atan2
  split_ifs <;>
    first
      | (exfalso; rcases hy.lt_or_lt with h | h <;> linarith)
      | (rw [neg_div, Real.arctan_neg]; try ring)
      | ring

theorem ps_eps1_neg (ex ey g : ℝ) :
    (_principal_strains ex ey (-g)).1 = (_principal_strains ex ey g).1 := by
  simp [_principal_strains, mul_neg, neg_sq]

theorem ps_eps2_neg (ex ey g : ℝ) :
    (_principal_strains ex ey (-g)).2.1 = (_principal_strains ex ey g).2.1 := by
  simp [_principal_strains, mul_neg, neg_sq]

/-- The Mohr's-circle angles of `gamma` and `-gamma` have equal squared
cosine and sine and opposite cosine-sine product (even when the source's
`theta = 0` guard or the `gamma = 0, eps_x < eps_y` degenerate angle `pi/2`
prevents `theta` itself from being odd). -/
theorem ps_theta_trig (ex ey g : ℝ) :
    Real.cos (_principal_strains ex ey (-g)).2.2 *
        Real.cos (_principal_strains ex ey (-g)).2.2 =
      Real.cos (_principal_strains ex ey g).2.2 *
        Real.cos (_principal_strains ex ey g).2.2 ∧
    Real.sin (_principal_strains ex ey (-g)).2.2 *
        Real.sin (_principal_strains ex ey (-g)).2.2 =
      Real.sin (_principal_strains ex ey g).2.2 *
        Real.sin (_principal_strains ex ey g).2.2 ∧
    Real.cos (_principal_strains ex ey (-g)).2.2 *
        Real.sin (_principal_strains ex ey (-g)).2.2 =
      -(Real.cos (_principal_strains ex ey g).2.2 *
        Real.sin (_principal_strains ex ey g).2.2) := by
  by_cases hg : g = 0
  · subst hg
    rw [neg_zero]
    refine ⟨rfl, rfl, ?_⟩
    have hzero : Real.cos (_principal_strains ex ey 0).2.2 *
        Real.sin (_principal_strains ex ey 0).2.2 = 0 := by
      simp only [_principal_strains]
      by_cases hd : |ex - ey| < 1e-15 ∧ |(0 : ℝ)| < 1e-15
      · rw [if_pos hd]
        simp
      · rw [if_neg hd]
        have hd' : ¬ |ex - ey| < 1e-15 := by
          intro hcon
          exact hd ⟨hcon, by norm_num⟩
        unfold atan2
        rcases lt_trichotomy 0 (ex - ey) with hx | hx | hx
        · rw [if_pos hx]
          simp [Real.arctan_zero]
        · exact absurd (by rw [← hx]; norm_num) hd'
        · rw [if_neg (by linarith), if_pos hx, if_pos (le_refl 0), zero_div,
            Real.arctan_zero, zero_add]
          have : (0.5 : ℝ) * Real.pi = Real.pi / 2 := by ring
          rw [this, Real.cos_pi_div_two, zero_mul]
    rw [hzero, neg_zero]
  · have hguard : (|ex - ey| < 1e-15 ∧ |(-g)| < 1e-15) ↔
        (|ex - ey| < 1e-15 ∧ |g| < 1e-15) := by rw [abs_neg]
    by_cases hd : |ex - ey| < 1e-15 ∧ |g| < 1e-15
    · simp only [_principal_strains, if_pos hd, if_pos (hguard.mpr hd)]
      norm_num
    · have htheta : (_principal_strains ex ey (-g)).2.2 =
          -(_principal_strains ex ey g).2.2 := by
        simp only [_principal_strains, if_neg hd, if_neg (fun h => hd (hguard.mp h))]
        rw [atan2_neg_left g (ex - ey) hg]
        ring
      rw [htheta, Real.cos_neg, Real.sin_neg]
      exact ⟨rfl, by ring, by ring⟩

/-! ### Claim C9: Mohr's-circle principal strains -/

/-- Counterexample to C9 as stated: at `(0, 0, 1e-16)` the guard
`|eps_x - eps_y| < 1e-15 ∧ |gamma| < 1e-15` makes `_principal_strains`
return `theta = 0`, while `(1/2) * atan2 gamma (eps_x - eps_y) = pi/4`. -/
theorem principal_strains_theta_counterexample :
    (_principal_strains 0 0 1e-16).2.2 ≠ 0.5 * atan2 1e-16 (0 - 0) := by
  have hθ : (_principal_strains 0 0 1e-16).2.2 = 0 := by
    simp only [_principal_strains]
    rw [if_pos (by norm_num [abs_of_nonneg])]
  have hpi4 : atan2 1e-16 ((0 : ℝ) - 0) = Real.pi / 2 := by
    unfold atan2
    rw [if_neg (by norm_num), if_neg (by norm_num), if_pos (by norm_num)]
  rw [hθ, hpi4]
  intro h
  have := Real.pi_pos
  rw [eq_comm] at h
  norm_num at h
  linarith

/-- Claim C9 (amended): `_principal_strains` always returns
`eps_1 ≥ eps_2`; `theta = (1/2) * atan2 gamma (eps_x - eps_y)` holds
whenever `|eps_x - eps_y| ≥ 1e-15` or `|gamma| ≥ 1e-15` (inside that guard
window the source returns `theta = 0` instead); and the two concrete
evaluations of the spec hold:
`_principal_strains 0.001 0 0 = (0.001, 0, 0)` and
`_principal_strains 0 0 0.002 = (0.001, -0.001, pi/4)`. -/
theorem principal_strains_spec (ex ey g : ℝ) :
    (_principal_strains ex ey g).2.1 ≤ (_principal_strains ex ey g).1 ∧
    ((1e-15 ≤ |ex - ey| ∨ 1e-15 ≤ |g|) →
      (_principal_strains ex ey g).2.2 = 0.5 * atan2 g (ex - ey)) ∧
    _principal_strains 0.001 0 0 = (0.001, 0, 0) ∧
    _principal_strains 0 0 0.002 = (0.001, -0.001, Real.pi / 4) := by
  refine ⟨?_, ?_, ?_, ?_⟩
  · simp only [_principal_strains]
    have h := Real.sqrt_nonneg
      (0.5 * (ex - ey) * (0.5 * (ex - ey)) + (0.5 * g) ^ 2)
    linarith
  · intro h
    simp only [_principal_strains]
    rw [if_neg]
    rcases h with h | h
    · exact fun hc => absurd hc.1 (not_lt.mpr h)
    · exact fun hc => absurd hc.2 (not_lt.mpr h)
  · have h2 : Real.sqrt
        (0.5 * ((0.001 : ℝ) - 0) * (0.5 * (0.001 - 0)) + (0.5 * 0) ^ 2) =
        0.0005 := by
      rw [show 0.5 * ((0.001 : ℝ) - 0) * (0.5 * (0.001 - 0)) + (0.5 * 0) ^ 2 =
        0.0005 ^ 2 by norm_num]
      exact Real.sqrt_sq (by norm_num)
    simp only [_principal_strains, h2]
    rw [if_neg (by norm_num [abs_of_nonneg])]
    unfold atan2
    rw [if_pos (by norm_num : (0 : ℝ) < 0.001 - 0)]
    rw [show ((0 : ℝ)) / (0.001 - 0) = 0 by norm_num, Real.arctan_zero]
    simp only [Prod.mk.injEq]
    norm_num
  · have h2 : Real.sqrt
        (0.5 * ((0 : ℝ) - 0) * (0.5 * (0 - 0)) + (0.5 * 0.002) ^ 2) =
        0.001 := by
      rw [show 0.5 * ((0 : ℝ) - 0) * (0.5 * (0 - 0)) + (0.5 * 0.002) ^ 2 =
        0.001 ^ 2 by norm_num]
      exact Real.sqrt_sq (by norm_num)
    simp only [_principal_strains, h2]
    rw [if_neg (by norm_num [abs_of_nonneg])]
    unfold atan2
    rw [if_neg (by norm_num : ¬ (0 : ℝ) < 0 - 0),
      if_neg (by norm_num : ¬ (0 : ℝ) - 0 < 0),
      if_pos (by norm_num : (0 : ℝ) < 0.002)]
    simp only [Prod.mk.injEq]
    norm_num
    ring

/-- Witness for the amended C9 at `(0, 0, 0.002)`, discharging the
`1e-15 ≤ |gamma|` hypothesis of the `theta` formula. -/
theorem principal_strains_spec_witness :
    ((1e-15 : ℝ) ≤ |(0.002 : ℝ)|) ∧
    (_principal_strains 0 0 0.002).2.2 = 0.5 * atan2 0.002 (0 - 0) :=
  ⟨by norm_num [abs_of_nonneg],
   (principal_strains_spec 0 0 0.002).2.1 (Or.inr (by norm_num [abs_of_nonneg]))⟩

/-! ### Claim C8: sign symmetry in the shear strain -/

theorem csxy_flip (c : Concrete) (e1 e2 θ θ' : ℝ)
    (h1 : Real.cos θ' * Real.cos θ' = Real.cos θ * Real.cos θ)
    (h2 : Real.sin θ' * Real.sin θ' = Real.sin θ * Real.sin θ)
    (h3 : Real.cos θ' * Real.sin θ' = -(Real.cos θ * Real.sin θ)) :
    (_concrete_stresses_xy c e1 e2 θ').sigma_cx =
      (_concrete_stresses_xy c e1 e2 θ).sigma_cx ∧
    (_concrete_stresses_xy c e1 e2 θ').sigma_cy =
      (_concrete_stresses_xy c e1 e2 θ).sigma_cy ∧
    (_concrete_stresses_xy c e1 e2 θ').tau_cxy =
      -(_concrete_stresses_xy c e1 e2 θ).tau_cxy := by
  simp only [_concrete_stresses_xy]
  refine ⟨?_, ?_, ?_⟩
  · rw [h1, h2]
  · rw [h1, h2]
  · rw [h3]; ring

theorem etr_flip (ex ey g : ℝ) (c : Concrete) (ρ : ℝ)
    (st : Option ReinforcingSteel) :
    (_evaluate_transverse_residual ex ey (-g) c ρ st).sigma_y_total =
      (_evaluate_transverse_residual ex ey g c ρ st).sigma_y_total ∧
    (_evaluate_transverse_residual ex ey (-g) c ρ st).sigma_cx =
      (_evaluate_transverse_residual ex ey g c ρ st).sigma_cx ∧
    (_evaluate_transverse_residual ex ey (-g) c ρ st).tau_cxy =
      -(_evaluate_transverse_residual ex ey g c ρ st).tau_cxy ∧
    (_evaluate_transverse_residual ex ey (-g) c ρ st).eps_1 =
      (_evaluate_transverse_residual ex ey g c ρ st).eps_1 ∧
    (_evaluate_transverse_residual ex ey (-g) c ρ st).eps_2 =
      (_evaluate_transverse_residual ex ey g c ρ st).eps_2 := by
  obtain ⟨h1, h2, h3⟩ := ps_theta_trig ex ey g
  have he1 := ps_eps1_neg ex ey g
  have he2 := ps_eps2_neg ex ey g
  obtain ⟨hcx, hcy, hτ⟩ := csxy_flip c (_principal_strains ex ey g).1
    (_principal_strains ex ey g).2.1 (_principal_strains ex ey g).2.2
    (_principal_strains ex ey (-g)).2.2 h1 h2 h3
  simp only [_evaluate_transverse_residual]
  rw [he1, he2]
  exact ⟨by rw [hcy], hcx, hτ, rfl, rfl⟩

theorem mcft_iterate_flip (ex g : ℝ) (c : Concrete) (ρ : ℝ)
    (st : Option ReinforcingSteel) (tol : ℝ) :
    ∀ (fuel : ℕ) (e : ℝ),
      mcft_iterate ex (-g) c ρ st tol fuel e =
        mcft_iterate ex g c ρ st tol fuel e := by
  intro fuel
  induction fuel with
  | zero => intro e; rfl
  | succ f ih =>
    intro e
    have h := etr_flip ex e g c ρ st
    have h2 := etr_flip ex (e + max (|e| * 1e-6) 1e-10) g c ρ st
    simp only [mcft_iterate, h.1, h2.1]
    split_ifs <;> first | rfl | exact ih _

/-- Claim C8: negating the input shear strain in `solve_mcft_node` negates
the returned `tau_xy` while leaving `sigma_x`, the solved `eps_y` and the
principal strains `eps_1`, `eps_2` unchanged. -/
theorem mcft_shear_sign_symmetry (ex g : ℝ) (c : Concrete) (ρ : ℝ)
    (st : Option ReinforcingSteel) (ρx : ℝ) (lm : Option ReinforcingSteel)
    (mi : ℕ) (tol : ℝ) :
    (solve_mcft_node ex (-g) c ρ st ρx lm mi tol).tau_xy =
      -(solve_mcft_node ex g c ρ st ρx lm mi tol).tau_xy ∧
    (solve_mcft_node ex (-g) c ρ st ρx lm mi tol).sigma_x =
      (solve_mcft_node ex g c ρ st ρx lm mi tol).sigma_x ∧
    (solve_mcft_node ex (-g) c ρ st ρx lm mi tol).eps_y =
      (solve_mcft_node ex g c ρ st ρx lm mi tol).eps_y ∧
    (solve_mcft_node ex (-g) c ρ st ρx lm mi tol).eps_1 =
      (solve_mcft_node ex g c ρ st ρx lm mi tol).eps_1 ∧
    (solve_mcft_node ex (-g) c ρ st ρx lm mi tol).eps_2 =
      (solve_mcft_node ex g c ρ st ρx lm mi tol).eps_2 := by
  by_cases hb : |g| < 1e-14
  · have hb' : |(-g)| < 1e-14 := by rwa [abs_neg]
    rw [solve_mcft_node.eq_def, solve_mcft_node.eq_def, if_pos hb', if_pos hb]
    cases lm <;> simp
  · have hb' : ¬ |(-g)| < 1e-14 := by rwa [abs_neg]
    rw [solve_mcft_node.eq_def, solve_mcft_node.eq_def, if_neg hb', if_neg hb]
    have hiter := mcft_iterate_flip ex g c ρ st tol mi (ex * 0.5)
    have h := etr_flip ex ((mcft_iterate ex g c ρ st tol mi (ex * 0.5)).1) g c ρ st
    simp only [hiter, h.1, h.2.1, h.2.2.1, h.2.2.2.1, h.2.2.2.2]
    cases lm <;> simp

/-! ### Claim C3: free-surface invariant at convergence -/

theorem mcft_iterate_converged_residual (ex g : ℝ) (c : Concrete) (ρ : ℝ)
    (st : Option ReinforcingSteel) (tol : ℝ) :
    ∀ (fuel : ℕ) (e e' : ℝ),
      mcft_iterate ex g c ρ st tol fuel e = (e', true) →
      |(_evaluate_transverse_residual ex e' g c ρ st).sigma_y_total| < tol := by
  intro fuel
  induction fuel with
  | zero =>
    intro e e' h
    simp only [mcft_iterate] at h
    exact absurd (congrArg Prod.snd h) (by simp)
  | succ f ih =>
    intro e e' h
    simp only [mcft_iterate] at h
    split_ifs at h with h1
    · injection h with h' _
      subst h'
      exact h1
    all_goals exact ih _ _ h

theorem solve_general_fields (ex g : ℝ) (c : Concrete) (ρ : ℝ)
    (st : Option ReinforcingSteel) (ρx : ℝ) (lm : Option ReinforcingSteel)
    (mi : ℕ) (tol : ℝ) (hb : ¬ |g| < 1e-14) :
    (solve_mcft_node ex g c ρ st ρx lm mi tol).sigma_y =
      (_evaluate_transverse_residual ex
        ((mcft_iterate ex g c ρ st tol mi (ex * 0.5)).1) g c ρ st).sigma_y_total ∧
    (solve_mcft_node ex g c ρ st ρx lm mi tol).converged =
      (mcft_iterate ex g c ρ st tol mi (ex * 0.5)).2 := by
  rw [solve_mcft_node.eq_def, if_neg hb]
  exact ⟨rfl, rfl⟩

/-- Claim C3: any state returned by `solve_mcft_node` under the default
tolerance `tol = 1e-3` MPa with `converged = true` satisfies
`|sigma_y| < 1e-3`, hence `|sigma_y| < 1` MPa. -/
theorem mcft_free_surface (ex g : ℝ) (c : Concrete) (ρ : ℝ)
    (st : Option ReinforcingSteel) (ρx : ℝ) (lm : Option ReinforcingSteel)
    (mi : ℕ)
    (h : (solve_mcft_node ex g c ρ st ρx lm mi 1e-3).converged = true) :
    |(solve_mcft_node ex g c ρ st ρx lm mi 1e-3).sigma_y| < 1e-3 ∧
    |(solve_mcft_node ex g c ρ st ρx lm mi 1e-3).sigma_y| < 1 := by
  by_cases hb : |g| < 1e-14
  · have hy : (solve_mcft_node ex g c ρ st ρx lm mi 1e-3).sigma_y = 0 := by
      rw [solve_mcft_node.eq_def, if_pos hb]
    rw [hy]
    norm_num
  · obtain ⟨hσ, hc⟩ := solve_general_fields ex g c ρ st ρx lm mi 1e-3 hb
    rw [hc] at h
    have hpair : mcft_iterate ex g c ρ st 1e-3 mi (ex * 0.5) =
        ((mcft_iterate ex g c ρ st 1e-3 mi (ex * 0.5)).1, true) := by
      rw [Prod.ext_iff]
      exact ⟨rfl, h⟩
    have hres := mcft_iterate_converged_residual ex g c ρ st 1e-3 mi
      (ex * 0.5) _ hpair
    rw [hσ]
    constructor
    · exact hres
    · linarith [abs_nonneg ((_evaluate_transverse_residual ex
        ((mcft_iterate ex g c ρ st 1e-3 mi (ex * 0.5)).1) g c ρ st).sigma_y_total)]

/-- Witness for C3 at the shortcut input `eps_x = 0.001`, `gamma = 0`. -/
theorem mcft_free_surface_witness :
    (solve_mcft_node 0.001 0 linConcrete 0 none 0 none 40 1e-3).converged = true ∧
    (|(solve_mcft_node 0.001 0 linConcrete 0 none 0 none 40 1e-3).sigma_y| < 1e-3 ∧
      |(solve_mcft_node 0.001 0 linConcrete 0 none 0 none 40 1e-3).sigma_y| < 1) := by
  have hconv : (solve_mcft_node 0.001 0 linConcrete 0 none 0 none 40 1e-3).converged
      = true := by
    rw [solve_mcft_node.eq_def, if_pos (by norm_num : |(0 : ℝ)| < 1e-14)]
  exact ⟨hconv, mcft_free_surface 0.001 0 linConcrete 0 none 0 none 40 hconv⟩

/-! ### Claims about the MCFT shortcut branch -/

/-- Claim C1: with no smeared longitudinal steel (`rho_x = 0`) and shear
strain numerically zero (`|gamma_xy| < 1e-14`), `solve_mcft_node` returns
`sigma_x = concrete.stress eps_x` exactly, `tau_xy = 0`, `sigma_y = 0` and
`converged = true` — the shortcut reproduces the plain uniaxial law. -/
theorem mcft_shortcut_uniaxial (eps_x gamma_xy : ℝ) (c : Concrete)
    (rho_y : ℝ) (stirrup lm : Option ReinforcingSteel) (mi : ℕ) (tol : ℝ)
    (h : |gamma_xy| < 1e-14) :
    (solve_mcft_node eps_x gamma_xy c rho_y stirrup 0 lm mi tol).sigma_x =
      c.stress eps_x ∧
    (solve_mcft_node eps_x gamma_xy c rho_y stirrup 0 lm mi tol).tau_xy = 0 ∧
    (solve_mcft_node eps_x gamma_xy c rho_y stirrup 0 lm mi tol).sigma_y = 0 ∧
    (solve_mcft_node eps_x gamma_xy c rho_y stirrup 0 lm mi tol).converged = true := by
  rw [solve_mcft_node.eq_def, if_pos h]
  cases lm <;> simp

/-- Witness for C1 at `eps_x = 0.001`, `gamma_xy = 0`, default arguments. -/
theorem mcft_shortcut_uniaxial_witness :
    |(0 : ℝ)| < 1e-14 ∧
    ((solve_mcft_node 0.001 0 linConcrete 0 none 0 none 40 1e-3).sigma_x =
        linConcrete.stress 0.001 ∧
      (solve_mcft_node 0.001 0 linConcrete 0 none 0 none 40 1e-3).tau_xy = 0 ∧
      (solve_mcft_node 0.001 0 linConcrete 0 none 0 none 40 1e-3).sigma_y = 0 ∧
      (solve_mcft_node 0.001 0 linConcrete 0 none 0 none 40 1e-3).converged = true) :=
  ⟨by norm_num,
   mcft_shortcut_uniaxial 0.001 0 linConcrete 0 none none 40 1e-3 (by norm_num)⟩

/-- Claim C10: whenever `|gamma_xy| < 1e-14`, the returned condensed tangent
has `tangent_xg = tangent_gx = tangent_gg = 0` exactly: the node reports
zero shear stiffness at zero shear strain. -/
theorem mcft_shortcut_zero_shear_tangent (eps_x gamma_xy : ℝ) (c : Concrete)
    (rho_y : ℝ) (stirrup : Option ReinforcingSteel) (rho_x : ℝ)
    (lm : Option ReinforcingSteel) (mi : ℕ) (tol : ℝ)
    (h : |gamma_xy| < 1e-14) :
    (solve_mcft_node eps_x gamma_xy c rho_y stirrup rho_x lm mi tol).tangent_xg = 0 ∧
    (solve_mcft_node eps_x gamma_xy c rho_y stirrup rho_x lm mi tol).tangent_gx = 0 ∧
    (solve_mcft_node eps_x gamma_xy c rho_y stirrup rho_x lm mi tol).tangent_gg = 0 := by
  rw [solve_mcft_node.eq_def, if_pos h]
  cases lm <;> simp

/-- Witness for C10 at `eps_x = -0.002`, `gamma_xy = 0`. -/
theorem mcft_shortcut_zero_shear_tangent_witness :
    |(0 : ℝ)| < 1e-14 ∧
    ((solve_mcft_node (-0.002) 0 linConcrete 0 none 0 none 40 1e-3).tangent_xg = 0 ∧
      (solve_mcft_node (-0.002) 0 linConcrete 0 none 0 none 40 1e-3).tangent_gx = 0 ∧
      (solve_mcft_node (-0.002) 0 linConcrete 0 none 0 none 40 1e-3).tangent_gg = 0) :=
  ⟨by norm_num,
   mcft_shortcut_zero_shear_tangent (-0.002) 0 linConcrete 0 none 0 none 40 1e-3
     (by norm_num)⟩

/-! ### Evaluation lemmas for the degenerate (zero-stress) material -/

theorem csxy_zero (e1 e2 θ : ℝ) :
    _concrete_stresses_xy zeroConcrete e1 e2 θ =
      ⟨0, 0, 0, 0, 0⟩ := by
  simp only [_concrete_stresses_xy, zeroConcrete, Concrete.ecr]
  split_ifs <;> simp

theorem etr_zero_res (ex ey g : ℝ) :
    (_evaluate_transverse_residual ex ey g zeroConcrete 0 none).sigma_y_total = 0 := by
  simp [_evaluate_transverse_residual, csxy_zero]

theorem etr_zero_cx (ex ey g : ℝ) :
    (_evaluate_transverse_residual ex ey g zeroConcrete 0 none).sigma_cx = 0 := by
  simp [_evaluate_transverse_residual, csxy_zero]

theorem etr_zero_tau (ex ey g : ℝ) :
    (_evaluate_transverse_residual ex ey g zeroConcrete 0 none).tau_cxy = 0 := by
  simp [_evaluate_transverse_residual, csxy_zero]

theorem mcft_iterate_zero (ex g e : ℝ) (f : ℕ) :
    mcft_iterate ex g zeroConcrete 0 none 1e-3 (f + 1) e = (e, true) := by
  simp only [mcft_iterate, etr_zero_res]
  rw [if_pos (by norm_num)]

theorem sst_iterate_zero (ex g e : ℝ) (f : ℕ) :
    sst_iterate ex g zeroConcrete 0 none 1e-3 f e = (0, 0) := by
  cases f with
  | zero => simp [sst_iterate, etr_zero_cx, etr_zero_tau]
  | succ f =>
    simp only [sst_iterate, etr_zero_res, etr_zero_cx, etr_zero_tau]
    rw [if_pos (by norm_num)]

theorem sst_solve_zero (ex g einit : ℝ) :
    _solve_for_sigma_x_tau ex g zeroConcrete 0 none 0 none einit 20 1e-3 = (0, 0) := by
  simp [_solve_for_sigma_x_tau, sst_iterate_zero]

theorem solve_zero_all (ex g : ℝ) :
    (solve_mcft_node ex g zeroConcrete 0 none 0 none 40 1e-3).sigma_x = 0 ∧
    (solve_mcft_node ex g zeroConcrete 0 none 0 none 40 1e-3).tau_xy = 0 ∧
    (solve_mcft_node ex g zeroConcrete 0 none 0 none 40 1e-3).tangent_xx = 0 ∧
    (solve_mcft_node ex g zeroConcrete 0 none 0 none 40 1e-3).tangent_xg = 0 ∧
    (solve_mcft_node ex g zeroConcrete 0 none 0 none 40 1e-3).tangent_gx = 0 ∧
    (solve_mcft_node ex g zeroConcrete 0 none 0 none 40 1e-3).tangent_gg = 0 ∧
    (solve_mcft_node ex g zeroConcrete 0 none 0 none 40 1e-3).converged = true := by
  by_cases hb : |g| < 1e-14
  · rw [solve_mcft_node.eq_def, if_pos hb]
    simp [zeroConcrete]
  · rw [solve_mcft_node.eq_def, if_neg hb]
    have hit : mcft_iterate ex g zeroConcrete 0 none 1e-3 40 (ex * 0.5) =
        (ex * 0.5, true) := mcft_iterate_zero ex g (ex * 0.5) 39
    simp [hit, etr_zero_res, etr_zero_cx, etr_zero_tau, sst_solve_zero]

theorem ifs_zero (e p g y : ℝ) :
    zeroSection.integrate_forces_shear e p g y = (0, 0, 0) := by
  simp [CrossSection.integrate_forces_shear, zeroSection, zeroLayer,
    (solve_zero_all _ _).1, (solve_zero_all _ _).2.1]

theorem i3_zero (e p g y : ℝ) :
    zeroSection.integrate_stiffness_3x3 e p g y =
      ⟨0, 0, 0, 0, 0, 0, 0, 0, 0⟩ := by
  simp [CrossSection.integrate_stiffness_3x3, ifs_zero]

/-! ### Claim C5: singular 3x3 system yields the all-zero shear profile -/

/-- Claim C5: when the assembled 3x3 tangent Jacobian has
`|det| < 1e-30`, `compute_shear_stress_distribution` returns one point per
concrete layer with `tau = 0` and `delta_q = 0` (and, being a total
function, raises nothing). -/
theorem shear_profile_singular_zero (sect : CrossSection) (e0 phi g y_ref : ℝ)
    (h : |det3 (assemble_J sect e0 phi g y_ref)| < 1e-30) :
    compute_shear_stress_distribution sect e0 phi g y_ref =
      sect.concrete_layers.map (fun lay => ⟨lay.y_mid, 0, 0⟩) := by
  rw [compute_shear_stress_distribution.eq_def]
  cases hl : sect.concrete_layers with
  | nil => simp [hl]
  | cons a l =>
    simp only [hl, _solve_3x3]
    rw [if_pos h]

/-- Witness for C5: the degenerate one-layer section assembles the zero
Jacobian, and the profile is the single zero point at the layer centroid. -/
theorem shear_profile_singular_zero_witness :
    |det3 (assemble_J zeroSection 0 0 0 50)| < 1e-30 ∧
    compute_shear_stress_distribution zeroSection 0 0 0 50 =
      [⟨50, 0, 0⟩] := by
  have hJ : assemble_J zeroSection 0 0 0 50 = ⟨0, 0, 0, 0, 0, 0, 0, 0, 0⟩ := by
    simp [assemble_J, layer_data_of, zeroSection, zeroLayer,
      (solve_zero_all _ _).2.2.1, (solve_zero_all _ _).2.2.2.1,
      (solve_zero_all _ _).2.2.2.2.1, (solve_zero_all _ _).2.2.2.2.2.1]
  have hdet : |det3 (assemble_J zeroSection 0 0 0 50)| < 1e-30 := by
    rw [hJ]
    norm_num [det3]
  refine ⟨hdet, ?_⟩
  rw [shear_profile_singular_zero _ _ _ _ _ hdet]
  simp [zeroSection, zeroLayer, ConcreteLayer.y_mid]
  norm_num

/-! ### Claim C7: V-gamma sweep evaluation on the degenerate section -/

theorem vg_newton_saZero10 (γ e p : ℝ) (f : ℕ) :
    vg_newton saZero10 γ f e p = (e, p, (0, 0, 0), false) := by
  cases f with
  | zero =>
    simp only [vg_newton, saZero10, ifs_zero, i3_zero]
    rw [if_neg (by norm_num [abs_of_nonpos]), if_pos (by norm_num)]
  | succ f =>
    simp only [vg_newton, saZero10, ifs_zero, i3_zero]
    rw [if_neg (by norm_num [abs_of_nonpos]), if_pos (by norm_num)]

theorem vg_newton_saZero0 (γ e p : ℝ) (f : ℕ) :
    vg_newton saZero0 γ f e p = (e, p, (0, 0, 0), true) := by
  cases f with
  | zero =>
    simp only [vg_newton, saZero0, ifs_zero, i3_zero]
    rw [if_pos (by norm_num)]
  | succ f =>
    simp only [vg_newton, saZero0, ifs_zero, i3_zero]
    rw [if_pos (by norm_num)]

theorem vg_outer_saZero10_succ (left step : ℕ) (e p : ℝ)
    (pts : List VGammaPoint) :
    vg_outer saZero10 (left + 1) step e p pts =
      if 0 < step then
        pts ++ [⟨(step : ℝ) * (0.01 / 1), 0, 0, e, p, false⟩]
      else
        vg_outer saZero10 left (step + 1) e p
          (pts ++ [⟨(step : ℝ) * (0.01 / 1), 0, 0, e, p, false⟩]) := by
  conv_lhs => rw [vg_outer]
  rw [vg_newton_saZero10]
  simp [saZero10]

theorem vg_outer_saZero0_succ (left step : ℕ) (e p : ℝ)
    (pts : List VGammaPoint) :
    vg_outer saZero0 (left + 1) step e p pts =
      vg_outer saZero0 left (step + 1) e p
        (pts ++ [⟨(step : ℝ) * (0.01 / 2), 0, 0, e, p, true⟩]) := by
  conv_lhs => rw [vg_outer]
  rw [vg_newton_saZero0]
  simp [saZero0, ifs_zero]

/-- The degenerate section under the unreachable 10 N axial load: step 0 is
singular and non-converged, yet the sweep still processes step 1. -/
theorem saZero10_run_points :
    (ShearAnalysis.run saZero10).points =
      [⟨0, 0, 0, 0, 0, false⟩, ⟨0.01, 0, 0, 0, 0, false⟩] := by
  have h0 : (ShearAnalysis.run saZero10).points =
      vg_outer saZero10 (1 + 1) 0 0 0 [] := rfl
  rw [h0, vg_outer_saZero10_succ, if_neg (by norm_num),
    vg_outer_saZero10_succ, if_pos (by norm_num)]
  norm_num

theorem saZero0_run_points :
    (ShearAnalysis.run saZero0).points =
      [⟨0, 0, 0, 0, 0, true⟩, ⟨0.005, 0, 0, 0, 0, true⟩,
        ⟨0.01, 0, 0, 0, 0, true⟩] := by
  have h0 : (ShearAnalysis.run saZero0).points =
      vg_outer saZero0 (2 + 1) 0 0 0 [] := rfl
  rw [h0, vg_outer_saZero0_succ, vg_outer_saZero0_succ, vg_outer_saZero0_succ]
  simp only [vg_outer]
  norm_num

/-- Counterexample to C7 as stated: at step 0 of `saZero10` the 2x2 block
of the 3x3 tangent is singular and the step is recorded non-converged, yet
the sweep does not terminate there — a second step is still processed. -/
theorem vgamma_singular_step0_counterexample :
    |(zeroSection.integrate_stiffness_3x3 0 0 0 50).a00 *
        (zeroSection.integrate_stiffness_3x3 0 0 0 50).a11 -
      (zeroSection.integrate_stiffness_3x3 0 0 0 50).a01 *
        (zeroSection.integrate_stiffness_3x3 0 0 0 50).a10| < 1e-20 ∧
    (ShearAnalysis.run saZero10).points.map VGammaPoint.converged =
      [false, false] := by
  constructor
  · rw [i3_zero]
    norm_num
  · rw [saZero10_run_points]
    rfl

theorem vg_outer_mid_converged (sa : ShearAnalysis) :
    ∀ (left step : ℕ) (e p : ℝ) (pts : List VGammaPoint),
      pts.length = step →
      (∀ q ∈ pts.tail, q.converged = true) →
      ∀ q ∈ (vg_outer sa left step e p pts).tail.dropLast,
        q.converged = true := by
  intro left
  induction left with
  | zero =>
    intro step e p pts hlen hinv q hq
    simp only [vg_outer] at hq
    exact hinv q (List.dropLast_subset _ hq)
  | succ l ih =>
    intro step e p pts hlen hinv
    simp only [vg_outer]
    by_cases hstop :
        (vg_newton sa ((step : ℝ) * (sa.gamma_max / (sa.n_steps : ℝ)))
          (sa.max_iter - 1) e p).2.2.2 = false ∧ 0 < step
    · rw [if_pos hstop]
      obtain ⟨a, rest, rfl⟩ : ∃ a rest, pts = a :: rest := by
        cases pts with
        | nil =>
          exfalso
          have h0 : step = 0 := by simpa using hlen.symm
          exact absurd hstop.2 (by omega)
        | cons a rest => exact ⟨a, rest, rfl⟩
      intro q hq
      rw [List.cons_append, List.tail_cons, List.dropLast_concat] at hq
      exact hinv q hq
    · rw [if_neg hstop]
      refine ih (step + 1) _ _ _ ?_ ?_
      · simp [hlen]
      · intro q hq
        cases pts with
        | nil => simp at hq
        | cons a rest =>
          rw [List.cons_append, List.tail_cons] at hq
          rcases List.mem_append.mp hq with hmem | hmem
          · exact hinv q hmem
          · rcases List.mem_singleton.mp hmem with rfl
            have hpos : 0 < step := by
              rw [← hlen]
              simp
            have hne : ¬ ((vg_newton sa
                ((step : ℝ) * (sa.gamma_max / (sa.n_steps : ℝ)))
                (sa.max_iter - 1) e p).2.2.2 = false) :=
              fun hf => hstop ⟨hf, hpos⟩
            revert hne
            cases (vg_newton sa ((step : ℝ) * (sa.gamma_max / (sa.n_steps : ℝ)))
              (sa.max_iter - 1) e p).2.2.2 <;> simp

/-- Claim C7 (amended): a non-converged step — in particular a singular 2x2
tangent block — terminates the V-gamma sweep at that step whenever the step
index is at least 1: among the recorded points, every point other than the
first and the last is converged.  (A non-converged step 0 does not
terminate the sweep: the `step > 0` guard exempts it.) -/
theorem vgamma_nonconverged_truncates_after_step0 (sa : ShearAnalysis) :
    ∀ q ∈ (ShearAnalysis.run sa).points.tail.dropLast, q.converged = true := by
  intro q hq
  exact vg_outer_mid_converged sa (sa.n_steps + 1) 0 0 0 [] rfl (by simp) q hq

/-- Witness for the amended C7: the middle point of the three-step
degenerate run is converged. -/
theorem vgamma_truncates_witness :
    (⟨0.005, 0, 0, 0, 0, true⟩ : VGammaPoint) ∈
      (ShearAnalysis.run saZero0).points.tail.dropLast ∧
    (VGammaPoint.mk 0.005 0 0 0 0 true).converged = true := by
  have hmem : (⟨0.005, 0, 0, 0, 0, true⟩ : VGammaPoint) ∈
      (ShearAnalysis.run saZero0).points.tail.dropLast := by
    rw [saZero0_run_points]
    simp
  exact ⟨hmem, vgamma_nonconverged_truncates_after_step0 saZero0 _ hmem⟩

end
